import Mathlib

/-!
Verification of the War card game engine (`Card.py`, `Deck.py`, `Game.py`,
`Main.py`).

The Python sources are shallowly embedded below.  Mutable attributes of the
`Game` object become fields of the `GState` structure; methods that mutate
`self` become functions `GState → GState` (or `GState → Option (Bool × GState)`
when the Python method can raise `IndexError` from popping an empty list, which
is modelled as `none`, and otherwise returns the game-over boolean).  Python
lists keep their orientation: Python index 0 is the Lean head, `list.pop()`
removes the Lean last element (`getLast?` / `dropLast`), `list.insert(0, x)` is
`x :: l`, and `a + b` is `a ++ b`.  Display-only code (card positioning,
pygame drawing, text rendering) is omitted: it inspects no pile and mutates
only screen locations and message strings.  Of the text fields only the
game-over winner message is kept (as `winner`), since the claims refer to it.

`random.shuffle` is modelled by a Fisher-Yates style shuffle driven by an
explicit list of random choices, so that every permutation of the deck is
obtainable for a suitable choice list.
-/

/-- Card.py: a playing card.  `rank`, `suit` and `value` are set in
`Card.__init__` and never change.  The mutable visibility flag lives on the
deck (see `Deck.vis`), not here, because Python stores it inside the shared
card objects while the game logic never reads it. -/
structure Card where
  rank : String
  suit : String
  value : Nat
deriving DecidableEq, Repr

/-- Deck.SUIT_TUPLE. -/
def SUIT_TUPLE : List String := ["Hearts", "Spades", "Diamonds", "Clubs"]

/-- Deck.STANDARD_DICT (insertion-ordered, as a Python dict iterates). -/
def STANDARD_DICT : List (String × Nat) :=
  [("9", 9), ("10", 10), ("Jack", 11), ("Queen", 12), ("King", 13), ("Ace", 14)]

/-- Deck.__init__ loop: one card per (suit, rank) pair, suits outermost. -/
def buildStartingDeck (rankValueDict : List (String × Nat)) : List Card :=
  (SUIT_TUPLE.map (fun suit =>
    rankValueDict.map (fun rv => { rank := rv.1, suit := suit, value := rv.2 }))).flatten

/-- Deck.py state: the fixed starting list, the mutable playing list, and the
visibility flag of each card (Python keeps it inside the card objects). -/
structure Deck where
  startingDeckList : List Card
  playingDeckList : List Card
  vis : Card → Bool

/-- random.shuffle, driven by an explicit list of random choices: each step
picks position (choice mod length) of the remaining cards as the next card.
Every permutation of the input is obtainable for a suitable choice list, and
an empty or short choice list leaves the tail of the list in place. -/
def fyShuffle : List Card → List Nat → List Card
  | l, [] => l
  | [], _ :: _ => []
  | a :: l, c :: cs =>
    let j := c % (a :: l).length
    (a :: l).get ⟨j, Nat.mod_lt _ (Nat.succ_pos _)⟩ ::
      fyShuffle ((a :: l).eraseIdx j) cs

/-- Deck.shuffle: reset the playing list to a copy of the starting list,
conceal every card, then shuffle it. -/
def Deck.shuffle (d : Deck) (cs : List Nat) : Deck :=
  { startingDeckList := d.startingDeckList
    playingDeckList := fyShuffle d.startingDeckList cs
    vis := fun _ => false }

/-- Deck.getCard: raise IndexError (`none`) on an empty playing list,
otherwise pop and return the top (last) card. -/
def Deck.getCard (d : Deck) : Option (Card × Deck) :=
  match d.playingDeckList.getLast? with
  | none => none
  | some c => some (c, { d with playingDeckList := d.playingDeckList.dropLast })

/-- Deck.__init__: build the starting list, then shuffle. -/
def Deck.initDeck (rankValueDict : List (String × Nat)) (cs : List Nat) : Deck :=
  Deck.shuffle
    { startingDeckList := buildStartingDeck rankValueDict
      playingDeckList := []
      vis := fun _ => false } cs

/-- Game.MAX_ROUND_NUMBER. -/
def MAX_ROUND_NUMBER : Nat := 100

/-- Who the game-over message names (`winnerText`). -/
inductive Winner where
  | player
  | npc
  | draw
deriving DecidableEq, Repr

/-- The mutable attributes of Game.py's `Game` object that the game logic
reads or writes, plus `over`, which models Main.py disabling the play button
once `manageGame` has returned True (no further advances are issued). -/
structure GState where
  playerCardList : List Card
  npcCardList : List Card
  stack : List Card
  roundNumber : Nat
  warNumber : Nat
  cardsSet : Bool
  warMode : Bool
  anotherWar : Bool
  stackCardsToShow : Bool
  playerLaidCard : Option Card
  npcLaidCard : Option Card
  playerStakeCard : Option Card
  npcStakeCard : Option Card
  playerNewLaidCard : Option Card
  npcNewLaidCard : Option Card
  playerScore : Nat
  npcScore : Nat
  winner : Option Winner
  over : Bool
deriving DecidableEq, Repr

/-- Game.returnCard: insert the card at index 0 of the competitor's list. -/
def returnCard (competitorList : List Card) (oCard : Card) : List Card :=
  oCard :: competitorList

/-- Game.setScores: scores are the current pile lengths. -/
def setScores (s : GState) : GState :=
  { s with playerScore := s.playerCardList.length, npcScore := s.npcCardList.length }

/-- Game.warChecking: if either side holds fewer than 2 cards, move that
side's cards and the stack to the opponent and report True.  Note that
`self.stack` itself is not cleared. -/
def warChecking (s : GState) : Bool × GState :=
  if s.playerCardList.length < 2 then
    (true, { s with
      npcCardList := s.npcCardList ++ s.stack ++ s.playerCardList
      playerCardList := [] })
  else if s.npcCardList.length < 2 then
    (true, { s with
      playerCardList := s.playerCardList ++ s.stack ++ s.npcCardList
      npcCardList := [] })
  else (false, s)

/-- Game.checkGameOver: `some w` means the method returns True having set the
winner text to `w`; `none` means it returns False. -/
def checkGameOver (playerCardList npcCardList : List Card) (roundNumber : Nat) :
    Option Winner :=
  if npcCardList.length = 0 then some Winner.player
  else if playerCardList.length = 0 then some Winner.npc
  else if roundNumber = MAX_ROUND_NUMBER then
    if playerCardList.length > npcCardList.length then some Winner.player
    else if playerCardList.length < npcCardList.length then some Winner.npc
    else some Winner.draw
  else none

/-- Game.gamePlay.  Pops the top card of each pile (IndexError = `none` if a
pile is empty), compares, returns both cards to the round winner's list (or
enters war mode on a tie), updates scores, runs `warChecking` when in war
mode, and finishes with `checkGameOver`. -/
def gamePlay (s : GState) : Option (Bool × GState) :=
  match s.playerCardList.getLast?, s.npcCardList.getLast? with
  | some playerLaid, some npcLaid =>
    let pl := s.playerCardList.dropLast
    let nl := s.npcCardList.dropLast
    let s1 : GState :=
      if playerLaid.value > npcLaid.value then
        { s with roundNumber := s.roundNumber + 1
                 playerCardList := returnCard (returnCard pl playerLaid) npcLaid
                 npcCardList := nl
                 playerLaidCard := some playerLaid
                 npcLaidCard := some npcLaid }
      else if playerLaid.value < npcLaid.value then
        { s with roundNumber := s.roundNumber + 1
                 playerCardList := pl
                 npcCardList := returnCard (returnCard nl npcLaid) playerLaid
                 playerLaidCard := some playerLaid
                 npcLaidCard := some npcLaid }
      else
        { s with roundNumber := s.roundNumber + 1
                 playerCardList := pl
                 npcCardList := nl
                 playerLaidCard := some playerLaid
                 npcLaidCard := some npcLaid
                 warMode := true }
    let s2 := setScores s1
    let s3 := if s2.warMode then (warChecking s2).2 else s2
    let w := checkGameOver s3.playerCardList s3.npcCardList s3.roundNumber
    some (w.isSome, if w.isSome then { s3 with winner := w } else s3)
  | _, _ => none

/-- The tail of Game.war shared by both entry paths: pop a stake card and a
new laid card from each side (in the source's pop order: player stake, NPC
stake, player new laid, NPC new laid), push all four onto the stack, and
resolve.  On a decisive comparison the whole stack is written at the front
(Python index 0 side) of the winner's list and war flags are cleared — the
stack list itself is not cleared.  On another tie, `anotherWar` is set. -/
def warBody (s : GState) : Option (Bool × GState) :=
  match s.playerCardList.getLast?, s.playerCardList.dropLast.getLast?,
        s.npcCardList.getLast?, s.npcCardList.dropLast.getLast? with
  | some pStake, some pNew, some nStake, some nNew =>
    let pl := s.playerCardList.dropLast.dropLast
    let nl := s.npcCardList.dropLast.dropLast
    let stack2 := s.stack ++ [pStake, nStake, pNew, nNew]
    let s1 := { s with
      warNumber := s.warNumber + 1
      playerStakeCard := some pStake
      npcStakeCard := some nStake
      playerNewLaidCard := some pNew
      npcNewLaidCard := some nNew }
    if pNew.value > nNew.value then
      some (false, setScores { s1 with
        playerCardList := stack2 ++ pl
        npcCardList := nl
        stack := stack2
        stackCardsToShow := true
        warMode := false
        anotherWar := false })
    else if pNew.value < nNew.value then
      some (false, setScores { s1 with
        playerCardList := pl
        npcCardList := stack2 ++ nl
        stack := stack2
        stackCardsToShow := true
        warMode := false
        anotherWar := false })
    else
      some (false, setScores { s1 with
        playerCardList := pl
        npcCardList := nl
        stack := stack2
        anotherWar := true })
  | _, _, _, _ => none

/-- Game.war: on a first war append the two laid cards to the stack; on a
chained war run `warChecking` first and, if it fires, return `checkGameOver`
immediately.  Otherwise continue with `warBody`. -/
def war (s : GState) : Option (Bool × GState) :=
  if s.anotherWar = false then
    match s.playerLaidCard, s.npcLaidCard with
    | some playerLaid, some npcLaid =>
      warBody { s with stack := s.stack ++ [playerLaid, npcLaid] }
    | _, _ => none
  else
    match warChecking s with
    | (true, s1) =>
      let w := checkGameOver s1.playerCardList s1.npcCardList s1.roundNumber
      some (w.isSome, if w.isSome then { s1 with winner := w } else s1)
    | (false, s1) => warBody s1

/-- Game.showStackCards: clear the stack-reveal flag and the stack, then run
the game-over check.  (Revealing the cards is display-only.) -/
def showStackCards (s : GState) : Option (Bool × GState) :=
  let s1 := { s with stackCardsToShow := false, stack := ([] : List Card) }
  let w := checkGameOver s1.playerCardList s1.npcCardList s1.roundNumber
  some (w.isSome, if w.isSome then { s1 with winner := w } else s1)

/-- Game.manageGame: dispatch on the game state.  The first-view branch only
places cards on screen and sets `cardsSet`; Python returns None there, which
Main.py treats as falsy, so it is modelled as `false`. -/
def manageGame (s : GState) : Option (Bool × GState) :=
  if s.cardsSet = false then some (false, { s with cardsSet := true })
  else if s.warMode = true then war s
  else if s.stackCardsToShow = true then showStackCards s
  else gamePlay s

/-- One tick of Main.py's play-button handler: run `manageGame` and, if it
reports game over, disable the play button (`over := true`). -/
def advance (s : GState) : Option (Bool × GState) :=
  match manageGame s with
  | none => none
  | some (b, s1) => some (b, if b then { s1 with over := true } else s1)

/-- The loop of Game.dealCards: `fuel` counts the remaining iterations and
`i` is the Python loop index; even indices deal to the player, odd to the
NPC, appending at the end of the respective list. -/
def dealLoop : Nat → Nat → Deck → List Card → List Card →
    Option (List Card × List Card)
  | 0, _, _, pl, nl => some (pl, nl)
  | fuel + 1, i, d, pl, nl =>
    match d.getCard with
    | none => none
    | some (c, d1) =>
      if i % 2 = 0 then dealLoop fuel (i + 1) d1 (pl ++ [c]) nl
      else dealLoop fuel (i + 1) d1 pl (nl ++ [c])

/-- Game.__init__ followed by the `manageGame()` call it performs itself:
build the deck (first shuffle, choices `cs0`), set the initial scores, deal
(`dealCards` reshuffles with choices `cs1` and deals one card alternately per
index of the starting list), and run the first `manageGame`, whose first-view
branch sets `cardsSet`. -/
def initGame (cs0 cs1 : List Nat) : Option GState :=
  match dealLoop (Deck.initDeck STANDARD_DICT cs0).startingDeckList.length 0
      ((Deck.initDeck STANDARD_DICT cs0).shuffle cs1) [] [] with
  | none => none
  | some (pl, nl) =>
    match advance {
      playerCardList := pl
      npcCardList := nl
      stack := []
      roundNumber := 0
      warNumber := 0
      cardsSet := false
      warMode := false
      anotherWar := false
      stackCardsToShow := false
      playerLaidCard := none
      npcLaidCard := none
      playerStakeCard := none
      npcStakeCard := none
      playerNewLaidCard := none
      npcNewLaidCard := none
      playerScore := (Deck.initDeck STANDARD_DICT cs0).startingDeckList.length / 2
      npcScore := (Deck.initDeck STANDARD_DICT cs0).startingDeckList.length / 2
      winner := none
      over := false } with
    | none => none
    | some (_, s1) => some s1

/-- The engine states the running program can be in: a freshly initialised
game, or the result of a play-button tick from a reachable state in which the
play button is still enabled. -/
inductive Reach : GState → Prop
  | init (cs0 cs1 : List Nat) (s : GState) : initGame cs0 cs1 = some s → Reach s
  | step (s s' : GState) (b : Bool) :
      Reach s → s.over = false → advance s = some (b, s') → Reach s'

/-- The standard 24-card deck the program always plays with
(`Game.__init__` constructs `Deck(window)` with the default rank map). -/
def deck24 : List Card := buildStartingDeck STANDARD_DICT

/-- The laid-card registers that currently hold a card. -/
def laidList (s : GState) : List Card :=
  [s.playerLaidCard, s.npcLaidCard].filterMap id

/-- The war stake / new-laid registers that currently hold a card. -/
def regList (s : GState) : List Card :=
  [s.playerStakeCard, s.npcStakeCard, s.playerNewLaidCard, s.npcNewLaidCard].filterMap id

/-- The cards transiently in flight: distinct cards sitting in a laid or
stake register while belonging to neither pile nor the stack. -/
def flightCards (s : GState) : List Card :=
  ((laidList s ++ regList s).filter
    (fun c => ¬ (c ∈ s.playerCardList ∨ c ∈ s.npcCardList ∨ c ∈ s.stack))).dedup

/-- The master list after a `getCard` call (unchanged when the call fails). -/
def masterAfterGetCard (d : Deck) : List Card :=
  match d.getCard with
  | none => d.startingDeckList
  | some (_, d1) => d1.startingDeckList

/-- The game-over decision ladder exactly as the specification words it:
opponent pile empty → player wins, else player pile empty → opponent wins,
else at round 100 the larger pile wins and equal piles draw, else the game
continues. -/
def checkGameOverSpec (playerCardList npcCardList : List Card) (roundNumber : Nat) :
    Option Winner :=
  if npcCardList.isEmpty then some Winner.player
  else if playerCardList.isEmpty then some Winner.npc
  else if roundNumber = 100 then
    if npcCardList.length < playerCardList.length then some Winner.player
    else if playerCardList.length < npcCardList.length then some Winner.npc
    else some Winner.draw
  else none

/-- The phase-dependent accounting invariant of reachable states: whose hands
the 24 cards are in, and the bookkeeping facts about the flag fields needed
to push it through each step.  In states where `warMode` is set and the stack
is empty, the two laid cards are held only in the laid-card registers; in
reveal and terminal states the stack is stale (its cards already merged into
a pile); everywhere else piles plus stack account for the whole deck. -/
def InvMain (s : GState) : Prop :=
  if s.warMode = true ∧ s.stack = [] then
    (∃ p n, s.playerLaidCard = some p ∧ s.npcLaidCard = some n ∧
      p ::ₘ n ::ₘ ((s.playerCardList : Multiset Card) + (s.npcCardList : Multiset Card)) =
        (deck24 : Multiset Card))
    ∧ s.anotherWar = false ∧ s.stackCardsToShow = false
  else if s.stackCardsToShow = true ∨ s.over = true then
    ((s.playerCardList : Multiset Card) + (s.npcCardList : Multiset Card) =
      (deck24 : Multiset Card))
    ∧ (s.over = false → s.warMode = false ∧ s.anotherWar = false)
  else
    ((s.playerCardList : Multiset Card) + (s.npcCardList : Multiset Card) +
        (s.stack : Multiset Card) = (deck24 : Multiset Card))
    ∧ (s.warMode = false → s.stack = [] ∧ s.anotherWar = false)
    ∧ (s.warMode = true → s.anotherWar = true)

/-- A register either is empty or holds a card of the deck. -/
def optInDeck : Option Card → Prop
  | none => True
  | some c => c ∈ deck24

/-- Full invariant: the first view has been shown, every register holds a
deck card (or nothing), and the accounting of `InvMain` holds. -/
def GInv (s : GState) : Prop :=
  s.cardsSet = true
  ∧ optInDeck s.playerLaidCard ∧ optInDeck s.npcLaidCard
  ∧ optInDeck s.playerStakeCard ∧ optInDeck s.npcStakeCard
  ∧ optInDeck s.playerNewLaidCard ∧ optInDeck s.npcNewLaidCard
  ∧ InvMain s

/-- A default state (used only to unpack `Option` values of total traces). -/
def dummyG : GState :=
  { playerCardList := [], npcCardList := [], stack := [], roundNumber := 0, warNumber := 0,
    cardsSet := false, warMode := false, anotherWar := false, stackCardsToShow := false,
    playerLaidCard := none, npcLaidCard := none, playerStakeCard := none, npcStakeCard := none,
    playerNewLaidCard := none, npcNewLaidCard := none, playerScore := 0, npcScore := 0,
    winner := none, over := false }

/-- Shuffle choices realising a deal whose first round ties (9 against 9) and
whose first war is decided (Jack against 10) in the player's favour. -/
def csA : List Nat := [0, 5, 2, 6, 0, 0, 2, 6, 11, 2, 5, 9, 5, 8, 0, 1, 3, 5, 0, 0, 1, 2, 0, 0]

/-- Shuffle choices realising a deal whose first round ties and whose wars
keep tying (9-9, 9-9, 10-10, 10-10, Jack-Jack, Jack-Jack) until the player
runs out of war cards. -/
def csB : List Nat := [0, 5, 2, 6, 8, 13, 10, 14, 0, 3, 1, 3, 4, 7, 5, 7, 0, 1, 0, 0, 0, 1, 0, 0]

/-- The states of game A after each play-button tick. -/
def aSt : Nat → GState
  | 0 => (initGame [] csA).getD dummyG
  | k + 1 => ((advance (aSt k)).getD (false, dummyG)).2

/-- The states of game B after each play-button tick. -/
def bSt : Nat → GState
  | 0 => (initGame [] csB).getD dummyG
  | k + 1 => ((advance (bSt k)).getD (false, dummyG)).2

def c9H : Card := { rank := "9", suit := "Hearts", value := 9 }

def c9S : Card := { rank := "9", suit := "Spades", value := 9 }

def cQH : Card := { rank := "Queen", suit := "Hearts", value := 12 }

def cQS : Card := { rank := "Queen", suit := "Spades", value := 12 }

def cJH : Card := { rank := "Jack", suit := "Hearts", value := 11 }

def c10S : Card := { rank := "10", suit := "Spades", value := 10 }

def cAH : Card := { rank := "Ace", suit := "Hearts", value := 14 }

def cKS : Card := { rank := "King", suit := "Spades", value := 13 }

/-- A small war position used to instantiate `C1_war_stack_goes_to_bottom`. -/
def c1w : GState :=
  { dummyG with
    cardsSet := true
    warMode := true
    anotherWar := false
    playerLaidCard := some c9H
    npcLaidCard := some c9S
    playerCardList := [cAH, cJH, cQH]
    npcCardList := [cKS, c10S, cQS]
    stack := [] }

/-- A small NORMAL-phase tie position used to instantiate `C2_normal_tie`. -/
def c2w : GState :=
  { dummyG with
    cardsSet := true
    playerCardList := [cAH, cJH, cQH, c9H]
    npcCardList := [cKS, c10S, cQS, c9S]
    stack := [] }

/-- A terminal chained-war position used to instantiate `C4_after_game_over`. -/
def c4w : GState :=
  { dummyG with
    cardsSet := true
    over := true
    warMode := true
    anotherWar := true
    playerCardList := [cAH]
    npcCardList := [cKS]
    stack := [cQH, cQS] }

/-- A NORMAL-phase position with a Jack laid against a 10, used to
instantiate `C5_round_resolution`. -/
def c5w : GState :=
  { dummyG with
    cardsSet := true
    playerCardList := [cAH, c9H, cJH]
    npcCardList := [cKS, c9S, c10S]
    stack := [] }

/-- A chained-war position with a single player card left, used to
instantiate `C6_war_insufficient`. -/
def c6w : GState :=
  { dummyG with
    cardsSet := true
    warMode := true
    anotherWar := true
    playerCardList := [cAH]
    npcCardList := [cKS, c10S]
    stack := [c9H, c9S, cQH, cQS] }

/-- The 22 deck cards other than the two tied nines, used by the C10
witness. -/
def c10rest : List Card := deck24.filter (fun c => c != c9H && c != c9S)

/-- A NORMAL-phase position where the player holds a single card that ties
the NPC's laid card, used to instantiate `C10_normal_tie_insufficient`. -/
def c10w : GState :=
  { dummyG with
    cardsSet := true
    playerCardList := [c9H]
    npcCardList := c10rest ++ [c9S]
    stack := [] }

/-! ## Theorems -/

theorem getLast?_decomp {α : Type} {l : List α} {a : α} (h : l.getLast? = some a) :
    l = l.dropLast ++ [a] := by
  cases l with
  | nil => simp at h
  | cons b t =>
    have hne : b :: t ≠ [] := by simp
    rw [List.getLast?_eq_getLast_of_ne_nil hne] at h
    injection h with h1
    rw [← h1]
    exact (List.dropLast_append_getLast hne).symm

theorem get_cons_eraseIdx_perm {α : Type} :
    ∀ (l : List α) (i : Fin l.length), (l.get i :: l.eraseIdx i).Perm l
  | a :: t, ⟨0, _⟩ => by simp
  | a :: t, ⟨j + 1, h⟩ => by
    have ih := get_cons_eraseIdx_perm t ⟨j, Nat.lt_of_succ_lt_succ h⟩
    have step1 : ((a :: t).get ⟨j + 1, h⟩ :: (a :: t).eraseIdx (j + 1))
        = t.get ⟨j, Nat.lt_of_succ_lt_succ h⟩ :: a :: t.eraseIdx j := rfl
    rw [step1]
    exact (List.Perm.swap _ _ _).trans (ih.cons a)

theorem fyShuffle_perm : ∀ (cs : List Nat) (l : List Card), (fyShuffle l cs).Perm l
  | [], l => by cases l <;> exact List.Perm.refl _
  | _ :: _, [] => by exact List.Perm.refl _
  | c :: cs, a :: l => by
    have ih := fyShuffle_perm cs ((a :: l).eraseIdx (c % (a :: l).length))
    have step1 : fyShuffle (a :: l) (c :: cs)
        = (a :: l).get ⟨c % (a :: l).length, Nat.mod_lt _ (Nat.succ_pos _)⟩ ::
            fyShuffle ((a :: l).eraseIdx (c % (a :: l).length)) cs := rfl
    rw [step1]
    exact (ih.cons _).trans (get_cons_eraseIdx_perm _ _)

/-- C9.  After `shuffle()` the live (playing) list is a permutation of the
master (starting) list, every card's visibility is concealed, and the master
list is unchanged both by the shuffle itself and by the later deck
operations (`getCard` and further shuffles). -/
theorem shuffle_perm_conceals_master_stable (d : Deck) (cs cs2 : List Nat) :
    ((d.shuffle cs).playingDeckList).Perm d.startingDeckList
    ∧ (∀ c : Card, (d.shuffle cs).vis c = false)
    ∧ (d.shuffle cs).startingDeckList = d.startingDeckList
    ∧ masterAfterGetCard (d.shuffle cs) = d.startingDeckList
    ∧ ((d.shuffle cs).shuffle cs2).startingDeckList = d.startingDeckList := by
  refine ⟨fyShuffle_perm cs _, fun _ => rfl, rfl, ?_, rfl⟩
  unfold masterAfterGetCard Deck.getCard
  cases ((d.shuffle cs).playingDeckList).getLast? <;> rfl

/-- C7.  The game-over evaluation of the code agrees with the specification's
fixed-order ladder on every input, and the round limit is 100. -/
theorem checkGameOver_follows_spec :
    (∀ (p n : List Card) (r : Nat), checkGameOver p n r = checkGameOverSpec p n r)
    ∧ MAX_ROUND_NUMBER = 100 := by
  refine ⟨fun p n r => ?_, rfl⟩
  unfold checkGameOver checkGameOverSpec MAX_ROUND_NUMBER
  simp only [List.isEmpty_iff_length_eq_zero, gt_iff_lt]

theorem deck24_nodup : deck24.Nodup := by decide

theorem deck24_length : deck24.length = 24 := rfl

theorem warChecking_pShort (s : GState) (h : s.playerCardList.length < 2) :
    warChecking s = (true, { s with
      npcCardList := s.npcCardList ++ s.stack ++ s.playerCardList
      playerCardList := [] }) := by
  unfold warChecking
  rw [if_pos h]

theorem warChecking_nShort (s : GState) (h : ¬ s.playerCardList.length < 2)
    (h2 : s.npcCardList.length < 2) :
    warChecking s = (true, { s with
      playerCardList := s.playerCardList ++ s.stack ++ s.npcCardList
      npcCardList := [] }) := by
  unfold warChecking
  rw [if_neg h, if_pos h2]

theorem warChecking_ok (s : GState) (h : ¬ s.playerCardList.length < 2)
    (h2 : ¬ s.npcCardList.length < 2) :
    warChecking s = (false, s) := by
  unfold warChecking
  rw [if_neg h, if_neg h2]

theorem manageGame_normal (s : GState) (hc : s.cardsSet = true)
    (hw : s.warMode = false) (hs : s.stackCardsToShow = false) :
    manageGame s = gamePlay s := by
  unfold manageGame
  rw [hc, hw, hs]
  simp

theorem manageGame_war (s : GState) (hc : s.cardsSet = true) (hw : s.warMode = true) :
    manageGame s = war s := by
  unfold manageGame
  rw [hc, hw]
  simp

theorem manageGame_show (s : GState) (hc : s.cardsSet = true)
    (hw : s.warMode = false) (hs : s.stackCardsToShow = true) :
    manageGame s = showStackCards s := by
  unfold manageGame
  rw [hc, hw, hs]
  simp

theorem advance_eq (s : GState) (b : Bool) (s1 : GState)
    (h : manageGame s = some (b, s1)) :
    advance s = some (b, if b then { s1 with over := true } else s1) := by
  unfold advance
  rw [h]

theorem gamePlay_win (s : GState) (p n : Card)
    (hp : s.playerCardList.getLast? = some p)
    (hn : s.npcCardList.getLast? = some n)
    (hw : s.warMode = false)
    (hv : n.value < p.value) :
    gamePlay s =
      (let s2 : GState := { s with
          roundNumber := s.roundNumber + 1
          playerCardList := n :: p :: s.playerCardList.dropLast
          npcCardList := s.npcCardList.dropLast
          playerLaidCard := some p
          npcLaidCard := some n }
       let s3 := setScores s2
       let w := checkGameOver s3.playerCardList s3.npcCardList s3.roundNumber
       some (w.isSome, if w.isSome then { s3 with winner := w } else s3)) := by
  unfold gamePlay
  rw [hp, hn]
  have hgt : p.value > n.value := hv
  simp only [if_pos hgt, returnCard, setScores, hw]
  simp [setScores, hw]

theorem gamePlay_lose (s : GState) (p n : Card)
    (hp : s.playerCardList.getLast? = some p)
    (hn : s.npcCardList.getLast? = some n)
    (hw : s.warMode = false)
    (hv : p.value < n.value) :
    gamePlay s =
      (let s2 : GState := { s with
          roundNumber := s.roundNumber + 1
          playerCardList := s.playerCardList.dropLast
          npcCardList := p :: n :: s.npcCardList.dropLast
          playerLaidCard := some p
          npcLaidCard := some n }
       let s3 := setScores s2
       let w := checkGameOver s3.playerCardList s3.npcCardList s3.roundNumber
       some (w.isSome, if w.isSome then { s3 with winner := w } else s3)) := by
  unfold gamePlay
  rw [hp, hn]
  have hngt : ¬ p.value > n.value := by omega
  simp only [if_neg hngt, if_pos hv, returnCard, setScores, hw]
  simp [setScores, hw]

theorem gamePlay_tie (s : GState) (p n : Card)
    (hp : s.playerCardList.getLast? = some p)
    (hn : s.npcCardList.getLast? = some n)
    (hw : s.warMode = false)
    (hv : p.value = n.value) :
    gamePlay s =
      (let s2 : GState := { s with
          roundNumber := s.roundNumber + 1
          playerCardList := s.playerCardList.dropLast
          npcCardList := s.npcCardList.dropLast
          playerLaidCard := some p
          npcLaidCard := some n
          warMode := true }
       let s3 := (warChecking (setScores s2)).2
       let w := checkGameOver s3.playerCardList s3.npcCardList s3.roundNumber
       some (w.isSome, if w.isSome then { s3 with winner := w } else s3)) := by
  unfold gamePlay
  rw [hp, hn]
  have h1 : ¬ p.value > n.value := by omega
  have h2 : ¬ p.value < n.value := by omega
  simp only [if_neg h1, if_neg h2, setScores]
  simp [setScores]

theorem war_first (s : GState) (p n : Card)
    (ha : s.anotherWar = false)
    (hp : s.playerLaidCard = some p) (hn : s.npcLaidCard = some n) :
    war s = warBody { s with stack := s.stack ++ [p, n] } := by
  unfold war
  rw [ha, hp, hn]
  simp

theorem war_chain_pShort (s : GState) (ha : s.anotherWar = true)
    (h : s.playerCardList.length < 2) :
    war s =
      (let s1 : GState := { s with
          npcCardList := s.npcCardList ++ s.stack ++ s.playerCardList
          playerCardList := [] }
       let w := checkGameOver s1.playerCardList s1.npcCardList s1.roundNumber
       some (w.isSome, if w.isSome then { s1 with winner := w } else s1)) := by
  unfold war
  rw [ha, warChecking_pShort s h]
  simp [ha]

theorem war_chain_nShort (s : GState) (ha : s.anotherWar = true)
    (h : ¬ s.playerCardList.length < 2) (h2 : s.npcCardList.length < 2) :
    war s =
      (let s1 : GState := { s with
          playerCardList := s.playerCardList ++ s.stack ++ s.npcCardList
          npcCardList := [] }
       let w := checkGameOver s1.playerCardList s1.npcCardList s1.roundNumber
       some (w.isSome, if w.isSome then { s1 with winner := w } else s1)) := by
  unfold war
  rw [ha, warChecking_nShort s h h2]
  simp [ha]

theorem war_chain_cont (s : GState) (ha : s.anotherWar = true)
    (h : ¬ s.playerCardList.length < 2) (h2 : ¬ s.npcCardList.length < 2) :
    war s = warBody s := by
  unfold war
  rw [ha, warChecking_ok s h h2]
  simp

theorem warBody_win (s : GState) (pStake pNew nStake nNew : Card)
    (hps : s.playerCardList.getLast? = some pStake)
    (hpn : s.playerCardList.dropLast.getLast? = some pNew)
    (hns : s.npcCardList.getLast? = some nStake)
    (hnn : s.npcCardList.dropLast.getLast? = some nNew)
    (hv : nNew.value < pNew.value) :
    warBody s = some (false, setScores { s with
      warNumber := s.warNumber + 1
      playerStakeCard := some pStake
      npcStakeCard := some nStake
      playerNewLaidCard := some pNew
      npcNewLaidCard := some nNew
      playerCardList :=
        (s.stack ++ [pStake, nStake, pNew, nNew]) ++ s.playerCardList.dropLast.dropLast
      npcCardList := s.npcCardList.dropLast.dropLast
      stack := s.stack ++ [pStake, nStake, pNew, nNew]
      stackCardsToShow := true
      warMode := false
      anotherWar := false }) := by
  unfold warBody
  rw [hps, hpn, hns, hnn]
  have hgt : pNew.value > nNew.value := hv
  simp [if_pos hgt, setScores]

theorem warBody_lose (s : GState) (pStake pNew nStake nNew : Card)
    (hps : s.playerCardList.getLast? = some pStake)
    (hpn : s.playerCardList.dropLast.getLast? = some pNew)
    (hns : s.npcCardList.getLast? = some nStake)
    (hnn : s.npcCardList.dropLast.getLast? = some nNew)
    (hv : pNew.value < nNew.value) :
    warBody s = some (false, setScores { s with
      warNumber := s.warNumber + 1
      playerStakeCard := some pStake
      npcStakeCard := some nStake
      playerNewLaidCard := some pNew
      npcNewLaidCard := some nNew
      playerCardList := s.playerCardList.dropLast.dropLast
      npcCardList :=
        (s.stack ++ [pStake, nStake, pNew, nNew]) ++ s.npcCardList.dropLast.dropLast
      stack := s.stack ++ [pStake, nStake, pNew, nNew]
      stackCardsToShow := true
      warMode := false
      anotherWar := false }) := by
  unfold warBody
  rw [hps, hpn, hns, hnn]
  have hngt : ¬ pNew.value > nNew.value := by omega
  simp [if_neg hngt, if_pos hv, setScores]

theorem warBody_tie (s : GState) (pStake pNew nStake nNew : Card)
    (hps : s.playerCardList.getLast? = some pStake)
    (hpn : s.playerCardList.dropLast.getLast? = some pNew)
    (hns : s.npcCardList.getLast? = some nStake)
    (hnn : s.npcCardList.dropLast.getLast? = some nNew)
    (hv : pNew.value = nNew.value) :
    warBody s = some (false, setScores { s with
      warNumber := s.warNumber + 1
      playerStakeCard := some pStake
      npcStakeCard := some nStake
      playerNewLaidCard := some pNew
      npcNewLaidCard := some nNew
      playerCardList := s.playerCardList.dropLast.dropLast
      npcCardList := s.npcCardList.dropLast.dropLast
      stack := s.stack ++ [pStake, nStake, pNew, nNew]
      anotherWar := true }) := by
  unfold warBody
  rw [hps, hpn, hns, hnn]
  have h1 : ¬ pNew.value > nNew.value := by omega
  have h2 : ¬ pNew.value < nNew.value := by omega
  simp [if_neg h1, if_neg h2, setScores]

theorem getLast?_mem {α : Type} {l : List α} {a : α} (h : l.getLast? = some a) :
    a ∈ l := by
  rw [getLast?_decomp h]
  simp

theorem dealLoop_ms : ∀ (fuel i : Nat) (d : Deck) (pl nl PL NL : List Card),
    fuel = d.playingDeckList.length →
    dealLoop fuel i d pl nl = some (PL, NL) →
    (PL : Multiset Card) + (NL : Multiset Card) =
      (pl : Multiset Card) + (nl : Multiset Card) + (d.playingDeckList : Multiset Card) := by
  intro fuel
  induction fuel with
  | zero =>
    intro i d pl nl PL NL hlen h
    have hnil : d.playingDeckList = [] := List.length_eq_zero.mp hlen.symm
    unfold dealLoop at h
    injection h with h1
    injection h1 with h2 h3
    subst h2 h3
    simp [hnil]
  | succ k ih =>
    intro i d pl nl PL NL hlen h
    have hne : d.playingDeckList ≠ [] := by
      intro hc
      rw [hc] at hlen
      simp at hlen
    obtain ⟨c, hc⟩ : ∃ c, d.playingDeckList.getLast? = some c := by
      cases hl : d.playingDeckList.getLast? with
      | none => exact absurd (List.getLast?_eq_none_iff.mp hl) hne
      | some c => exact ⟨c, rfl⟩
    have hget : d.getCard =
        some (c, { d with playingDeckList := d.playingDeckList.dropLast }) := by
      unfold Deck.getCard
      rw [hc]
    have hdl : d.playingDeckList.dropLast.length = k := by
      rw [List.length_dropLast, ← hlen]
      omega
    have hsplit : (d.playingDeckList : Multiset Card) =
        (d.playingDeckList.dropLast : Multiset Card) + {c} := by
      conv_lhs => rw [getLast?_decomp hc]
      rw [← Multiset.coe_add]
      simp
    unfold dealLoop at h
    rw [hget] at h
    have h2 : (if i % 2 = 0 then
        dealLoop k (i + 1) { d with playingDeckList := d.playingDeckList.dropLast }
          (pl ++ [c]) nl
      else
        dealLoop k (i + 1) { d with playingDeckList := d.playingDeckList.dropLast }
          pl (nl ++ [c])) = some (PL, NL) := h
    by_cases hi : i % 2 = 0
    · rw [if_pos hi] at h2
      have := ih (i + 1) _ (pl ++ [c]) nl PL NL hdl.symm h2
      rw [this, hsplit]
      simp only [← Multiset.coe_add, Multiset.coe_singleton]
      abel
    · rw [if_neg hi] at h2
      have := ih (i + 1) _ pl (nl ++ [c]) PL NL hdl.symm h2
      rw [this, hsplit]
      simp only [← Multiset.coe_add, Multiset.coe_singleton]
      abel

theorem inv_init (cs0 cs1 : List Nat) (s : GState) (h : initGame cs0 cs1 = some s) :
    GInv s := by
  unfold initGame at h
  have hstart : (Deck.initDeck STANDARD_DICT cs0).startingDeckList = deck24 := rfl
  cases hdeal : dealLoop (Deck.initDeck STANDARD_DICT cs0).startingDeckList.length 0
      ((Deck.initDeck STANDARD_DICT cs0).shuffle cs1) [] [] with
  | none => rw [hdeal] at h; exact absurd h (by simp)
  | some pn =>
    obtain ⟨pl, nl⟩ := pn
    rw [hdeal] at h
    have hms := dealLoop_ms (Deck.initDeck STANDARD_DICT cs0).startingDeckList.length 0
      ((Deck.initDeck STANDARD_DICT cs0).shuffle cs1) [] [] pl nl
      (by
        show (Deck.initDeck STANDARD_DICT cs0).startingDeckList.length =
          (fyShuffle (Deck.initDeck STANDARD_DICT cs0).startingDeckList cs1).length
        exact ((fyShuffle_perm cs1 _).length_eq).symm) hdeal
    have hperm : (pl : Multiset Card) + (nl : Multiset Card) = (deck24 : Multiset Card) := by
      rw [hms]
      have h3 : (((Deck.initDeck STANDARD_DICT cs0).shuffle cs1).playingDeckList :
          Multiset Card) = (deck24 : Multiset Card) := by
        rw [Multiset.coe_eq_coe, ← hstart]
        exact fyShuffle_perm cs1 _
      simp only [Deck.shuffle] at h3 ⊢
      rw [h3]
      simp
    simp only [advance, manageGame] at h
    simp at h
    rw [← h]
    refine ⟨rfl, trivial, trivial, trivial, trivial, trivial, trivial, ?_⟩
    unfold InvMain
    rw [if_neg (by simp), if_neg (by simp)]
    refine ⟨?_, fun _ => ⟨rfl, rfl⟩, fun hcon => by simp at hcon⟩
    simpa using hperm

theorem mem_deck_of_multiset {A : Multiset Card} (h : A = (deck24 : Multiset Card))
    {c : Card} (hc : c ∈ A) : c ∈ deck24 := by
  rw [h] at hc
  simpa using hc

theorem ginv_preserved_show (s : GState) (b : Bool) (s1 : GState)
    (hinv : GInv s) (hov : s.over = false) (hw : s.warMode = false)
    (hs : s.stackCardsToShow = true)
    (h : showStackCards s = some (b, s1)) :
    GInv (if b then { s1 with over := true } else s1) := by
  obtain ⟨hcs, hr1, hr2, hr3, hr4, hr5, hr6, hmain⟩ := hinv
  unfold InvMain at hmain
  rw [if_neg (by simp [hw]), if_pos (by simp [hs])] at hmain
  obtain ⟨hms, hflags⟩ := hmain
  obtain ⟨hwm, han⟩ := hflags hov
  unfold showStackCards at h
  have h2 : some ((checkGameOver s.playerCardList s.npcCardList s.roundNumber).isSome,
      if (checkGameOver s.playerCardList s.npcCardList s.roundNumber).isSome = true then
        { s with stackCardsToShow := false, stack := ([] : List Card),
                 winner := checkGameOver s.playerCardList s.npcCardList s.roundNumber }
      else { s with stackCardsToShow := false, stack := ([] : List Card) }) =
      some (b, s1) := h
  clear h
  cases hcg : checkGameOver s.playerCardList s.npcCardList s.roundNumber with
  | none =>
    rw [hcg] at h2
    simp at h2
    obtain ⟨hb, hs1⟩ := h2
    subst hb
    rw [← hs1]
    simp only [if_neg (by simp : ¬ (false = true))]
    refine ⟨hcs, hr1, hr2, hr3, hr4, hr5, hr6, ?_⟩
    unfold InvMain
    rw [if_neg (by simp [hw]), if_neg (by simp [hov])]
    exact ⟨by simpa using hms, fun _ => ⟨rfl, han⟩, fun hcon => by simp [hw] at hcon⟩
  | some w0 =>
    rw [hcg] at h2
    simp at h2
    obtain ⟨hb, hs1⟩ := h2
    subst hb
    rw [← hs1]
    simp only [show ((true : Bool) = true) = True by simp, if_true]
    refine ⟨hcs, hr1, hr2, hr3, hr4, hr5, hr6, ?_⟩
    unfold InvMain
    rw [if_neg (by simp [hw]), if_pos (by simp)]
    exact ⟨by simpa using hms, fun hcon => by simp at hcon⟩

theorem gamePlay_none_left (s : GState) (hp : s.playerCardList.getLast? = none) :
    gamePlay s = none := by
  unfold gamePlay
  rw [hp]

theorem gamePlay_none_right (s : GState) (hn : s.npcCardList.getLast? = none) :
    gamePlay s = none := by
  unfold gamePlay
  rw [hn]
  cases s.playerCardList.getLast? <;> rfl

theorem ginv_preserved_gamePlay (s : GState) (b : Bool) (s1 : GState)
    (hinv : GInv s) (hov : s.over = false) (hw : s.warMode = false)
    (hs : s.stackCardsToShow = false)
    (h : gamePlay s = some (b, s1)) :
    GInv (if b then { s1 with over := true } else s1) := by
  obtain ⟨hcs, hr1, hr2, hr3, hr4, hr5, hr6, hmain⟩ := hinv
  unfold InvMain at hmain
  rw [if_neg (by simp [hw]), if_neg (by simp [hs, hov])] at hmain
  obtain ⟨hms, hflags, hchain⟩ := hmain
  obtain ⟨hstk, han⟩ := hflags hw
  cases hp : s.playerCardList.getLast? with
  | none => rw [gamePlay_none_left s hp] at h; exact Option.noConfusion h
  | some p =>
  cases hn : s.npcCardList.getLast? with
  | none => rw [gamePlay_none_right s hn] at h; exact Option.noConfusion h
  | some n =>
  have hpdeck : p ∈ deck24 := by
    apply mem_deck_of_multiset hms
    simp only [Multiset.mem_add, Multiset.mem_coe]
    exact Or.inl (Or.inl (getLast?_mem hp))
  have hndeck : n ∈ deck24 := by
    apply mem_deck_of_multiset hms
    simp only [Multiset.mem_add, Multiset.mem_coe]
    exact Or.inl (Or.inr (getLast?_mem hn))
  have hpd := getLast?_decomp hp
  have hnd := getLast?_decomp hn
  have hms2 : ((s.playerCardList.dropLast : Multiset Card) + {p}) +
      ((s.npcCardList.dropLast : Multiset Card) + {n}) = (deck24 : Multiset Card) := by
    rw [← hms, hstk]
    conv_rhs => rw [hpd, hnd]
    simp only [← Multiset.coe_add, Multiset.coe_singleton, Multiset.coe_nil]
    abel
  rcases Nat.lt_trichotomy p.value n.value with hv | hv | hv
  · -- NPC wins the round
    rw [gamePlay_lose s p n hp hn hw hv] at h
    simp only [setScores] at h
    cases hcg : checkGameOver s.playerCardList.dropLast
        (p :: n :: s.npcCardList.dropLast) (s.roundNumber + 1) with
    | none =>
      simp [hcg] at h
      obtain ⟨hb, hs1⟩ := h
      subst hb
      rw [← hs1]
      simp only [Bool.false_eq_true, if_neg (by simp : ¬ False)]
      refine ⟨hcs, hpdeck, hndeck, hr3, hr4, hr5, hr6, ?_⟩
      unfold InvMain
      rw [if_neg (by simp [hw]), if_neg (by simp [hs, hov])]
      refine ⟨?_, fun _ => ⟨hstk, han⟩, fun hcon => by simp [hw] at hcon⟩
      rw [hstk, ← hms2]
      simp only [← Multiset.cons_coe, ← Multiset.coe_add, Multiset.coe_singleton,
        Multiset.coe_nil, ← Multiset.singleton_add]
      abel
    | some w0 =>
      simp [hcg] at h
      obtain ⟨hb, hs1⟩ := h
      subst hb
      rw [← hs1]
      simp only [show ((true : Bool) = true) = True by simp, if_true]
      refine ⟨hcs, hpdeck, hndeck, hr3, hr4, hr5, hr6, ?_⟩
      unfold InvMain
      rw [if_neg (by simp [hw]), if_pos (by simp)]
      refine ⟨?_, fun hcon => by simp at hcon⟩
      rw [← hms2]
      simp only [← Multiset.cons_coe, ← Multiset.coe_add, Multiset.coe_singleton,
        Multiset.coe_nil, ← Multiset.singleton_add]
      abel
  · -- tie: war mode
    rw [gamePlay_tie s p n hp hn hw hv] at h
    simp only [setScores] at h
    by_cases h2p : s.playerCardList.dropLast.length < 2
    · -- player side short: warChecking fires at once
      simp only [warChecking, h2p, if_pos, if_true] at h
      simp [hstk] at h
      cases hcg : checkGameOver ([] : List Card)
          (s.npcCardList.dropLast ++ s.playerCardList.dropLast) (s.roundNumber + 1) with
      | none =>
        simp [hcg] at h
        obtain ⟨hb, hs1⟩ := h
        subst hb
        rw [← hs1]
        simp only [Bool.false_eq_true, if_neg (by simp : ¬ False)]
        refine ⟨hcs, hpdeck, hndeck, hr3, hr4, hr5, hr6, ?_⟩
        unfold InvMain
        rw [if_pos (by simp)]
        refine ⟨⟨p, n, rfl, rfl, ?_⟩, han, hs⟩
        rw [← hms2]
        simp only [← Multiset.cons_coe, ← Multiset.coe_add, Multiset.coe_singleton,
          Multiset.coe_nil, ← Multiset.singleton_add]
        abel
      | some w0 =>
        simp [hcg] at h
        obtain ⟨hb, hs1⟩ := h
        subst hb
        rw [← hs1]
        simp only [show ((true : Bool) = true) = True by simp, if_true]
        refine ⟨hcs, hpdeck, hndeck, hr3, hr4, hr5, hr6, ?_⟩
        unfold InvMain
        rw [if_pos (by simp)]
        refine ⟨⟨p, n, rfl, rfl, ?_⟩, han, hs⟩
        rw [← hms2]
        simp only [← Multiset.cons_coe, ← Multiset.coe_add, Multiset.coe_singleton,
          Multiset.coe_nil, ← Multiset.singleton_add]
        abel
    · by_cases h2n : s.npcCardList.dropLast.length < 2
      · -- NPC side short
        simp only [warChecking, h2p, h2n, if_neg, if_pos, if_true, if_false] at h
        simp [hstk, h2p] at h
        cases hcg : checkGameOver (s.playerCardList.dropLast ++ s.npcCardList.dropLast)
            ([] : List Card) (s.roundNumber + 1) with
        | none =>
          simp [hcg] at h
          obtain ⟨hb, hs1⟩ := h
          subst hb
          rw [← hs1]
          simp only [Bool.false_eq_true, if_neg (by simp : ¬ False)]
          refine ⟨hcs, hpdeck, hndeck, hr3, hr4, hr5, hr6, ?_⟩
          unfold InvMain
          rw [if_pos (by simp)]
          refine ⟨⟨p, n, rfl, rfl, ?_⟩, han, hs⟩
          rw [← hms2]
          simp only [← Multiset.cons_coe, ← Multiset.coe_add, Multiset.coe_singleton,
            Multiset.coe_nil, ← Multiset.singleton_add]
          abel
        | some w0 =>
          simp [hcg] at h
          obtain ⟨hb, hs1⟩ := h
          subst hb
          rw [← hs1]
          simp only [show ((true : Bool) = true) = True by simp, if_true]
          refine ⟨hcs, hpdeck, hndeck, hr3, hr4, hr5, hr6, ?_⟩
          unfold InvMain
          rw [if_pos (by simp)]
          refine ⟨⟨p, n, rfl, rfl, ?_⟩, han, hs⟩
          rw [← hms2]
          simp only [← Multiset.cons_coe, ← Multiset.coe_add, Multiset.coe_singleton,
            Multiset.coe_nil, ← Multiset.singleton_add]
          abel
      · -- both sides can fight the war
        simp only [warChecking, h2p, h2n, if_neg, if_false] at h
        simp [h2p, h2n] at h
        cases hcg : checkGameOver s.playerCardList.dropLast s.npcCardList.dropLast
            (s.roundNumber + 1) with
        | none =>
          simp [hcg] at h
          obtain ⟨hb, hs1⟩ := h
          subst hb
          rw [← hs1]
          simp only [Bool.false_eq_true, if_neg (by simp : ¬ False)]
          refine ⟨hcs, hpdeck, hndeck, hr3, hr4, hr5, hr6, ?_⟩
          unfold InvMain
          rw [if_pos (by simp [hstk])]
          refine ⟨⟨p, n, rfl, rfl, ?_⟩, han, hs⟩
          rw [← hms2]
          simp only [← Multiset.cons_coe, ← Multiset.coe_add, Multiset.coe_singleton,
            Multiset.coe_nil, ← Multiset.singleton_add]
          abel
        | some w0 =>
          simp [hcg] at h
          obtain ⟨hb, hs1⟩ := h
          subst hb
          rw [← hs1]
          simp only [show ((true : Bool) = true) = True by simp, if_true]
          refine ⟨hcs, hpdeck, hndeck, hr3, hr4, hr5, hr6, ?_⟩
          unfold InvMain
          rw [if_pos (by simp [hstk])]
          refine ⟨⟨p, n, rfl, rfl, ?_⟩, han, hs⟩
          rw [← hms2]
          simp only [← Multiset.cons_coe, ← Multiset.coe_add, Multiset.coe_singleton,
            Multiset.coe_nil, ← Multiset.singleton_add]
          abel
  · -- player wins the round
    rw [gamePlay_win s p n hp hn hw hv] at h
    simp only [setScores] at h
    cases hcg : checkGameOver (n :: p :: s.playerCardList.dropLast)
        s.npcCardList.dropLast (s.roundNumber + 1) with
    | none =>
      simp [hcg] at h
      obtain ⟨hb, hs1⟩ := h
      subst hb
      rw [← hs1]
      simp only [Bool.false_eq_true, if_neg (by simp : ¬ False)]
      refine ⟨hcs, hpdeck, hndeck, hr3, hr4, hr5, hr6, ?_⟩
      unfold InvMain
      rw [if_neg (by simp [hw]), if_neg (by simp [hs, hov])]
      refine ⟨?_, fun _ => ⟨hstk, han⟩, fun hcon => by simp [hw] at hcon⟩
      rw [hstk, ← hms2]
      simp only [← Multiset.cons_coe, ← Multiset.coe_add, Multiset.coe_singleton,
        Multiset.coe_nil, ← Multiset.singleton_add]
      abel
    | some w0 =>
      simp [hcg] at h
      obtain ⟨hb, hs1⟩ := h
      subst hb
      rw [← hs1]
      simp only [show ((true : Bool) = true) = True by simp, if_true]
      refine ⟨hcs, hpdeck, hndeck, hr3, hr4, hr5, hr6, ?_⟩
      unfold InvMain
      rw [if_neg (by simp [hw]), if_pos (by simp)]
      refine ⟨?_, fun hcon => by simp at hcon⟩
      rw [← hms2]
      simp only [← Multiset.cons_coe, ← Multiset.coe_add, Multiset.coe_singleton,
        Multiset.coe_nil, ← Multiset.singleton_add]
      abel

theorem warBody_noneCase (s : GState)
    (hnone : s.playerCardList.getLast? = none ∨ s.playerCardList.dropLast.getLast? = none ∨
      s.npcCardList.getLast? = none ∨ s.npcCardList.dropLast.getLast? = none) :
    warBody s = none := by
  unfold warBody
  cases h1 : s.playerCardList.getLast? <;>
    cases h2 : s.playerCardList.dropLast.getLast? <;>
      cases h3 : s.npcCardList.getLast? <;>
        cases h4 : s.npcCardList.dropLast.getLast? <;>
          first
          | rfl
          | (exfalso; rcases hnone with h | h | h | h <;> simp_all)

theorem ginv_preserved_warBody (s : GState) (b : Bool) (s1 : GState)
    (hcs : s.cardsSet = true)
    (hr1 : optInDeck s.playerLaidCard) (hr2 : optInDeck s.npcLaidCard)
    (hov : s.over = false) (hw : s.warMode = true)
    (hss : s.stackCardsToShow = false)
    (hstk : s.stack ≠ [])
    (hms : (s.playerCardList : Multiset Card) + (s.npcCardList : Multiset Card) +
      (s.stack : Multiset Card) = (deck24 : Multiset Card))
    (h : warBody s = some (b, s1)) :
    GInv (if b then { s1 with over := true } else s1) := by
  cases hps : s.playerCardList.getLast? with
  | none => rw [warBody_noneCase s (Or.inl hps)] at h; exact Option.noConfusion h
  | some pStake =>
  cases hpn : s.playerCardList.dropLast.getLast? with
  | none => rw [warBody_noneCase s (Or.inr (Or.inl hpn))] at h; exact Option.noConfusion h
  | some pNew =>
  cases hns : s.npcCardList.getLast? with
  | none => rw [warBody_noneCase s (Or.inr (Or.inr (Or.inl hns)))] at h
            exact Option.noConfusion h
  | some nStake =>
  cases hnn : s.npcCardList.dropLast.getLast? with
  | none => rw [warBody_noneCase s (Or.inr (Or.inr (Or.inr hnn)))] at h
            exact Option.noConfusion h
  | some nNew =>
  have hmsP : (s.playerCardList : Multiset Card) =
      (s.playerCardList.dropLast.dropLast : Multiset Card) + {pNew} + {pStake} := by
    conv_lhs => rw [getLast?_decomp hps, getLast?_decomp hpn]
    simp only [← Multiset.coe_add, Multiset.coe_singleton]
  have hmsN : (s.npcCardList : Multiset Card) =
      (s.npcCardList.dropLast.dropLast : Multiset Card) + {nNew} + {nStake} := by
    conv_lhs => rw [getLast?_decomp hns, getLast?_decomp hnn]
    simp only [← Multiset.coe_add, Multiset.coe_singleton]
  have hpsd : pStake ∈ deck24 := by
    apply mem_deck_of_multiset hms
    simp only [Multiset.mem_add, Multiset.mem_coe]
    exact Or.inl (Or.inl (getLast?_mem hps))
  have hpnd : pNew ∈ deck24 := by
    apply mem_deck_of_multiset hms
    simp only [Multiset.mem_add, Multiset.mem_coe]
    refine Or.inl (Or.inl ?_)
    have := getLast?_mem hpn
    exact List.dropLast_subset _ this
  have hnsd : nStake ∈ deck24 := by
    apply mem_deck_of_multiset hms
    simp only [Multiset.mem_add, Multiset.mem_coe]
    exact Or.inl (Or.inr (getLast?_mem hns))
  have hnnd : nNew ∈ deck24 := by
    apply mem_deck_of_multiset hms
    simp only [Multiset.mem_add, Multiset.mem_coe]
    refine Or.inl (Or.inr ?_)
    have := getLast?_mem hnn
    exact List.dropLast_subset _ this
  rcases Nat.lt_trichotomy pNew.value nNew.value with hv | hv | hv
  · -- NPC wins the war
    rw [warBody_lose s pStake pNew nStake nNew hps hpn hns hnn hv] at h
    simp only [setScores] at h
    simp at h
    obtain ⟨hb, hs1⟩ := h
    subst hb
    rw [← hs1]
    simp only [Bool.false_eq_true, if_neg (by simp : ¬ False)]
    refine ⟨hcs, hr1, hr2, hpsd, hnsd, hpnd, hnnd, ?_⟩
    unfold InvMain
    rw [if_neg (by simp), if_pos (by simp)]
    refine ⟨?_, fun _ => ⟨rfl, rfl⟩⟩
    rw [← hms, hmsP, hmsN]
    simp only [← Multiset.cons_coe, ← Multiset.coe_add, Multiset.coe_singleton,
      Multiset.coe_nil, ← Multiset.singleton_add]
    abel
  · -- the war ties again: chained war
    rw [warBody_tie s pStake pNew nStake nNew hps hpn hns hnn hv] at h
    simp only [setScores] at h
    simp at h
    obtain ⟨hb, hs1⟩ := h
    subst hb
    rw [← hs1]
    simp only [Bool.false_eq_true, if_neg (by simp : ¬ False)]
    refine ⟨hcs, hr1, hr2, hpsd, hnsd, hpnd, hnnd, ?_⟩
    unfold InvMain
    rw [if_neg (by simp), if_neg (by simp [hss, hov])]
    refine ⟨?_, fun hcon => by rw [hw] at hcon; exact absurd hcon (by simp),
      fun _ => rfl⟩
    rw [← hms, hmsP, hmsN]
    simp only [← Multiset.cons_coe, ← Multiset.coe_add, Multiset.coe_singleton,
      Multiset.coe_nil, ← Multiset.singleton_add]
    abel
  · -- the player wins the war
    rw [warBody_win s pStake pNew nStake nNew hps hpn hns hnn hv] at h
    simp only [setScores] at h
    simp at h
    obtain ⟨hb, hs1⟩ := h
    subst hb
    rw [← hs1]
    simp only [Bool.false_eq_true, if_neg (by simp : ¬ False)]
    refine ⟨hcs, hr1, hr2, hpsd, hnsd, hpnd, hnnd, ?_⟩
    unfold InvMain
    rw [if_neg (by simp), if_pos (by simp)]
    refine ⟨?_, fun _ => ⟨rfl, rfl⟩⟩
    rw [← hms, hmsP, hmsN]
    simp only [← Multiset.cons_coe, ← Multiset.coe_add, Multiset.coe_singleton,
      Multiset.coe_nil, ← Multiset.singleton_add]
    abel

theorem ginv_preserved_war (s : GState) (b : Bool) (s1 : GState)
    (hinv : GInv s) (hov : s.over = false) (hw : s.warMode = true)
    (h : war s = some (b, s1)) :
    GInv (if b then { s1 with over := true } else s1) := by
  obtain ⟨hcs, hr1, hr2, hr3, hr4, hr5, hr6, hmain⟩ := hinv
  unfold InvMain at hmain
  by_cases hstk : s.stack = []
  · -- first war for this tie: the two laid cards join the stack
    rw [if_pos (by simp [hw, hstk])] at hmain
    obtain ⟨⟨p, n, hpl, hnl, hperm⟩, han, hss⟩ := hmain
    rw [war_first s p n han hpl hnl] at h
    have hpd : p ∈ deck24 := by
      have : p ∈ (deck24 : Multiset Card) := by
        rw [← hperm]; simp
      simpa using this
    have hnd : n ∈ deck24 := by
      have : n ∈ (deck24 : Multiset Card) := by
        rw [← hperm]; simp
      simpa using this
    refine ginv_preserved_warBody { s with stack := s.stack ++ [p, n] } b s1 hcs
      ?_ ?_ hov hw hss ?_ ?_ h
    · simpa [optInDeck, hpl] using hpd
    · simpa [optInDeck, hnl] using hnd
    · simp [hstk]
    · show (s.playerCardList : Multiset Card) + (s.npcCardList : Multiset Card) +
        ((s.stack ++ [p, n] : List Card) : Multiset Card) = (deck24 : Multiset Card)
      rw [← hperm, hstk]
      simp only [← Multiset.cons_coe, ← Multiset.coe_add, Multiset.coe_singleton,
        Multiset.coe_nil, ← Multiset.singleton_add]
      abel
  · -- a chained war
    rw [if_neg (by simp [hstk])] at hmain
    by_cases hss : s.stackCardsToShow = true
    · rw [if_pos (by simp [hss])] at hmain
      obtain ⟨_, hflags⟩ := hmain
      obtain ⟨hwm, _⟩ := hflags hov
      rw [hw] at hwm
      exact absurd hwm (by simp)
    · have hss2 : s.stackCardsToShow = false := by
        cases hb2 : s.stackCardsToShow
        · rfl
        · exact absurd hb2 hss
      rw [if_neg (by simp [hss2, hov])] at hmain
      obtain ⟨hms, _, hchain⟩ := hmain
      have ha : s.anotherWar = true := hchain hw
      by_cases h2p : s.playerCardList.length < 2
      · -- the player cannot fight on: everything goes to the NPC
        rw [war_chain_pShort s ha h2p] at h
        have hlen : ¬ (s.npcCardList ++ s.stack ++ s.playerCardList).length = 0 := by
          have := List.length_pos.mpr hstk
          simp only [List.length_append]
          omega
        have hcg : checkGameOver ([] : List Card)
            (s.npcCardList ++ s.stack ++ s.playerCardList) s.roundNumber =
            some Winner.npc := by
          unfold checkGameOver
          rw [if_neg hlen, if_pos (by simp)]
        have h3 : some ((checkGameOver ([] : List Card)
            (s.npcCardList ++ s.stack ++ s.playerCardList) s.roundNumber).isSome,
            if (checkGameOver ([] : List Card)
                (s.npcCardList ++ s.stack ++ s.playerCardList) s.roundNumber).isSome = true then
              { s with npcCardList := s.npcCardList ++ s.stack ++ s.playerCardList
                       playerCardList := []
                       winner := checkGameOver ([] : List Card)
                         (s.npcCardList ++ s.stack ++ s.playerCardList) s.roundNumber }
            else
              { s with npcCardList := s.npcCardList ++ s.stack ++ s.playerCardList
                       playerCardList := [] }) = some (b, s1) := h
        clear h
        rw [hcg] at h3
        simp at h3
        obtain ⟨hb, hs1⟩ := h3
        subst hb
        rw [← hs1]
        simp only [show ((true : Bool) = true) = True by simp, if_true]
        refine ⟨hcs, hr1, hr2, hr3, hr4, hr5, hr6, ?_⟩
        unfold InvMain
        rw [if_neg (by simp [hstk]), if_pos (by simp)]
        refine ⟨?_, fun hcon => by simp at hcon⟩
        rw [← hms]
        simp only [← Multiset.coe_add, Multiset.coe_nil]
        abel
      · by_cases h2n : s.npcCardList.length < 2
        · -- the NPC cannot fight on: everything goes to the player
          rw [war_chain_nShort s ha h2p h2n] at h
          have hcg : checkGameOver (s.playerCardList ++ s.stack ++ s.npcCardList)
              ([] : List Card) s.roundNumber = some Winner.player := by
            unfold checkGameOver
            rw [if_pos (by simp)]
          have h3 : some ((checkGameOver (s.playerCardList ++ s.stack ++ s.npcCardList)
              ([] : List Card) s.roundNumber).isSome,
              if (checkGameOver (s.playerCardList ++ s.stack ++ s.npcCardList)
                  ([] : List Card) s.roundNumber).isSome = true then
                { s with playerCardList := s.playerCardList ++ s.stack ++ s.npcCardList
                         npcCardList := []
                         winner := checkGameOver (s.playerCardList ++ s.stack ++ s.npcCardList)
                           ([] : List Card) s.roundNumber }
              else
                { s with playerCardList := s.playerCardList ++ s.stack ++ s.npcCardList
                         npcCardList := [] }) = some (b, s1) := h
          clear h
          rw [hcg] at h3
          simp at h3
          obtain ⟨hb, hs1⟩ := h3
          subst hb
          rw [← hs1]
          simp only [show ((true : Bool) = true) = True by simp, if_true]
          refine ⟨hcs, hr1, hr2, hr3, hr4, hr5, hr6, ?_⟩
          unfold InvMain
          rw [if_neg (by simp [hstk]), if_pos (by simp)]
          refine ⟨?_, fun hcon => by simp at hcon⟩
          rw [← hms]
          simp only [← Multiset.coe_add, Multiset.coe_nil]
          abel
        · -- both sides have enough cards: fight the next war round
          rw [war_chain_cont s ha h2p h2n] at h
          exact ginv_preserved_warBody s b s1 hcs hr1 hr2 hov hw hss2 hstk hms h

theorem inv_step (s : GState) (b : Bool) (s2 : GState)
    (hinv : GInv s) (hov : s.over = false) (hadv : advance s = some (b, s2)) :
    GInv s2 := by
  have hcs : s.cardsSet = true := hinv.1
  unfold advance at hadv
  cases hmg : manageGame s with
  | none => rw [hmg] at hadv; exact Option.noConfusion hadv
  | some bs =>
    obtain ⟨b0, s1⟩ := bs
    rw [hmg] at hadv
    simp at hadv
    obtain ⟨hb, hs2⟩ := hadv
    subst hb
    rw [← hs2]
    cases hwm : s.warMode with
    | true =>
      have hws : war s = some (b0, s1) := by rw [← manageGame_war s hcs hwm]; exact hmg
      exact ginv_preserved_war s b0 s1 hinv hov hwm hws
    | false =>
      cases hsh : s.stackCardsToShow with
      | true =>
        have hws : showStackCards s = some (b0, s1) := by
          rw [← manageGame_show s hcs hwm hsh]; exact hmg
        exact ginv_preserved_show s b0 s1 hinv hov hwm hsh hws
      | false =>
        have hws : gamePlay s = some (b0, s1) := by
          rw [← manageGame_normal s hcs hwm hsh]; exact hmg
        exact ginv_preserved_gamePlay s b0 s1 hinv hov hwm hsh hws

theorem reach_ginv (s : GState) (h : Reach s) : GInv s := by
  induction h with
  | init cs0 cs1 s h0 => exact inv_init cs0 cs1 s h0
  | step s s2 b _ hov hadv ih => exact inv_step s b s2 ih hov hadv

theorem flight_two (s : GState) (p n : Card)
    (hpl : s.playerLaidCard = some p) (hnl : s.npcLaidCard = some n)
    (hpnp : p ∉ s.playerCardList) (hpnn : p ∉ s.npcCardList)
    (hnnp : n ∉ s.playerCardList) (hnnn : n ∉ s.npcCardList)
    (hne : p ≠ n) (hstk : s.stack = [])
    (hregs : ∀ c ∈ regList s,
      c ∈ s.playerCardList ∨ c ∈ s.npcCardList ∨ c = p ∨ c = n) :
    (flightCards s).Perm [p, n] := by
  have hnd1 : (flightCards s).Nodup := by
    unfold flightCards
    exact List.nodup_dedup _
  rw [List.perm_ext_iff_of_nodup hnd1 (by simp [hne])]
  intro a
  unfold flightCards
  rw [List.mem_dedup, List.mem_filter]
  simp only [List.mem_append, decide_eq_true_eq, List.mem_cons,
    List.not_mem_nil, or_false, hstk]
  constructor
  · rintro ⟨hmem | hmem, hpred⟩
    · unfold laidList at hmem
      rw [hpl, hnl] at hmem
      simpa using hmem
    · rcases hregs a hmem with hc | hc | hc | hc
      · exact absurd (Or.inl hc) hpred
      · exact absurd (Or.inr hc) hpred
      · exact Or.inl hc
      · exact Or.inr hc
  · rintro (rfl | rfl)
    · refine ⟨Or.inl ?_, ?_⟩
      · unfold laidList
        rw [hpl, hnl]
        simp
      · simp [hpnp, hpnn]
    · refine ⟨Or.inl ?_, ?_⟩
      · unfold laidList
        rw [hpl, hnl]
        simp
      · simp [hnnp, hnnn]

theorem flight_nil (s : GState)
    (hregs : ∀ c ∈ laidList s ++ regList s,
      c ∈ s.playerCardList ∨ c ∈ s.npcCardList ∨ c ∈ s.stack) :
    flightCards s = [] := by
  unfold flightCards
  have hfil : (laidList s ++ regList s).filter
      (fun c => ¬ (c ∈ s.playerCardList ∨ c ∈ s.npcCardList ∨ c ∈ s.stack)) = [] := by
    rw [List.filter_eq_nil_iff]
    intro a ha
    have h5 := hregs a ha
    simp
    tauto
  rw [hfil]
  rfl

theorem regs_mem_deck (s : GState)
    (hr1 : optInDeck s.playerLaidCard) (hr2 : optInDeck s.npcLaidCard)
    (hr3 : optInDeck s.playerStakeCard) (hr4 : optInDeck s.npcStakeCard)
    (hr5 : optInDeck s.playerNewLaidCard) (hr6 : optInDeck s.npcNewLaidCard) :
    ∀ c ∈ laidList s ++ regList s, c ∈ deck24 := by
  intro c hc
  simp only [laidList, regList, List.mem_append, List.mem_filterMap, List.mem_cons,
    List.not_mem_nil, or_false, id_eq] at hc
  rcases hc with ⟨x, hx, hxc⟩ | ⟨x, hx, hxc⟩
  · subst hxc
    rcases hx with h | h
    · rw [← h] at hr1
      simpa [optInDeck] using hr1
    · rw [← h] at hr2
      simpa [optInDeck] using hr2
  · subst hxc
    rcases hx with h | h | h | h
    · rw [← h] at hr3
      simpa [optInDeck] using hr3
    · rw [← h] at hr4
      simpa [optInDeck] using hr4
    · rw [← h] at hr5
      simpa [optInDeck] using hr5
    · rw [← h] at hr6
      simpa [optInDeck] using hr6

/-- C3 (amended).  For every reachable state, the player's pile, the
opponent's pile and the cards transiently in flight (laid or staked cards
held outside every container), plus the stack, account for exactly the 24
cards of the deck — except that in reveal-pending states and in terminal
states the stack is stale (war resolution copies it into the winner's pile
without clearing it, and `showStackCards` clears it only on the next
advance), so there the stack must be counted as zero. -/
theorem C3_conservation (s : GState) (h : Reach s) :
    s.playerCardList.length + s.npcCardList.length + (flightCards s).length +
      (if s.stackCardsToShow = true ∨ s.over = true then 0 else s.stack.length) = 24 := by
  obtain ⟨hcs, hr1, hr2, hr3, hr4, hr5, hr6, hmain⟩ := reach_ginv s h
  have hregd := regs_mem_deck s hr1 hr2 hr3 hr4 hr5 hr6
  unfold InvMain at hmain
  by_cases hb1 : s.warMode = true ∧ s.stack = []
  · rw [if_pos hb1] at hmain
    obtain ⟨⟨p, n, hpl, hnl, hperm⟩, han, hss⟩ := hmain
    have hndall : (p ::ₘ n ::ₘ ((s.playerCardList : Multiset Card) +
        (s.npcCardList : Multiset Card))).Nodup := by
      rw [hperm]
      exact Multiset.coe_nodup.mpr deck24_nodup
    rw [Multiset.nodup_cons] at hndall
    obtain ⟨hp1, hndall⟩ := hndall
    rw [Multiset.nodup_cons] at hndall
    obtain ⟨hn1, _⟩ := hndall
    have hne : p ≠ n := by
      intro he
      apply hp1
      rw [he]
      exact Multiset.mem_cons_self n _
    have hpp : p ∉ s.playerCardList := fun hc => hp1 (by simp [hc])
    have hpn : p ∉ s.npcCardList := fun hc => hp1 (by simp [hc])
    have hnp : n ∉ s.playerCardList := fun hc => hn1 (by simp [hc])
    have hnn : n ∉ s.npcCardList := fun hc => hn1 (by simp [hc])
    have hregs : ∀ c ∈ regList s,
        c ∈ s.playerCardList ∨ c ∈ s.npcCardList ∨ c = p ∨ c = n := by
      intro c hc
      have hcd : c ∈ deck24 := hregd c (by simp [hc])
      have hcm : c ∈ (p ::ₘ n ::ₘ ((s.playerCardList : Multiset Card) +
          (s.npcCardList : Multiset Card))) := by
        rw [hperm]
        simpa using hcd
      simp only [Multiset.mem_cons, Multiset.mem_add, Multiset.mem_coe] at hcm
      tauto
    have hflight := flight_two s p n hpl hnl hpp hpn hnp hnn hne hb1.2 hregs
    have hlen2 : (flightCards s).length = 2 := by
      rw [hflight.length_eq]
      rfl
    have hcount := congrArg Multiset.card hperm
    simp only [Multiset.card_cons, Multiset.card_add, Multiset.coe_card] at hcount
    rw [deck24_length] at hcount
    rw [hlen2, hb1.2]
    simp only [List.length_nil, ite_self]
    omega
  · rw [if_neg hb1] at hmain
    by_cases hb2 : s.stackCardsToShow = true ∨ s.over = true
    · rw [if_pos hb2] at hmain
      obtain ⟨hms, _⟩ := hmain
      have hregs : ∀ c ∈ laidList s ++ regList s,
          c ∈ s.playerCardList ∨ c ∈ s.npcCardList ∨ c ∈ s.stack := by
        intro c hc
        have hcd : c ∈ deck24 := hregd c hc
        have hcm : c ∈ ((s.playerCardList : Multiset Card) +
            (s.npcCardList : Multiset Card)) := by
          rw [hms]
          simpa using hcd
        simp only [Multiset.mem_add, Multiset.mem_coe] at hcm
        tauto
      rw [flight_nil s hregs]
      have hcount := congrArg Multiset.card hms
      simp only [Multiset.card_add, Multiset.coe_card] at hcount
      rw [deck24_length] at hcount
      rw [if_pos hb2]
      simpa using hcount
    · rw [if_neg hb2] at hmain
      obtain ⟨hms, _⟩ := hmain
      have hregs : ∀ c ∈ laidList s ++ regList s,
          c ∈ s.playerCardList ∨ c ∈ s.npcCardList ∨ c ∈ s.stack := by
        intro c hc
        have hcd : c ∈ deck24 := hregd c hc
        have hcm : c ∈ ((s.playerCardList : Multiset Card) +
            (s.npcCardList : Multiset Card) + (s.stack : Multiset Card)) := by
          rw [hms]
          simpa using hcd
        simp only [Multiset.mem_add, Multiset.mem_coe] at hcm
        tauto
      rw [flight_nil s hregs]
      have hcount := congrArg Multiset.card hms
      simp only [Multiset.card_add, Multiset.coe_card] at hcount
      rw [deck24_length] at hcount
      rw [if_neg hb2]
      simp only [List.length_nil]
      omega

theorem aSt0_init : initGame [] csA = some (aSt 0) := by rfl

theorem bSt0_init : initGame [] csB = some (bSt 0) := by rfl

theorem reach_aSt1 : Reach (aSt 1) :=
  Reach.step (aSt 0) (aSt 1) ((advance (aSt 0)).getD (false, dummyG)).1
    (Reach.init [] csA (aSt 0) aSt0_init) (by rfl) (by rfl)

theorem reach_aSt2 : Reach (aSt 2) :=
  Reach.step (aSt 1) (aSt 2) ((advance (aSt 1)).getD (false, dummyG)).1
    reach_aSt1 (by rfl) (by rfl)

theorem reach_bSt1 : Reach (bSt 1) :=
  Reach.step (bSt 0) (bSt 1) ((advance (bSt 0)).getD (false, dummyG)).1
    (Reach.init [] csB (bSt 0) bSt0_init) (by rfl) (by rfl)

theorem reach_bSt2 : Reach (bSt 2) :=
  Reach.step (bSt 1) (bSt 2) ((advance (bSt 1)).getD (false, dummyG)).1
    reach_bSt1 (by rfl) (by rfl)

theorem reach_bSt3 : Reach (bSt 3) :=
  Reach.step (bSt 2) (bSt 3) ((advance (bSt 2)).getD (false, dummyG)).1
    reach_bSt2 (by rfl) (by rfl)

theorem reach_bSt4 : Reach (bSt 4) :=
  Reach.step (bSt 3) (bSt 4) ((advance (bSt 3)).getD (false, dummyG)).1
    reach_bSt3 (by rfl) (by rfl)

theorem reach_bSt5 : Reach (bSt 5) :=
  Reach.step (bSt 4) (bSt 5) ((advance (bSt 4)).getD (false, dummyG)).1
    reach_bSt4 (by rfl) (by rfl)

theorem reach_bSt6 : Reach (bSt 6) :=
  Reach.step (bSt 5) (bSt 6) ((advance (bSt 5)).getD (false, dummyG)).1
    reach_bSt5 (by rfl) (by rfl)

theorem reach_bSt7 : Reach (bSt 7) :=
  Reach.step (bSt 6) (bSt 7) ((advance (bSt 6)).getD (false, dummyG)).1
    reach_bSt6 (by rfl) (by rfl)

theorem concat_getLast {α : Type} (l : List α) (a b : α) :
    (l ++ [a, b]).getLast? = some b ∧ (l ++ [a, b]).dropLast = l ++ [a] := by
  have h1 : l ++ [a, b] = (l ++ [a]) ++ [b] := by simp
  rw [h1]
  exact ⟨List.getLast?_concat _, List.dropLast_concat⟩

/-- C1 (counterexample).  A reachable state right after a decisively resolved
war, in which the stack is non-empty yet the next card the winner will draw
(the last element of the pile) is not a stack card: the stack sits at the
bottom of the pile (its first six positions at index 0), not at the draw
end, so stack cards are drawn later, not sooner, than the cards already in
the winner's pile. -/
theorem C1_counterexample :
    Reach (aSt 2) ∧ (aSt 2).stackCardsToShow = true ∧
      (aSt 2).stack.length = 6 ∧
      (aSt 2).playerCardList.take 6 = (aSt 2).stack ∧
      (aSt 2).playerCardList.getLast? =
        some { rank := "10", suit := "Diamonds", value := 10 } ∧
      ({ rank := "10", suit := "Diamonds", value := 10 } : Card) ∉ (aSt 2).stack :=
  ⟨reach_aSt2, by rfl, by rfl, by rfl, by rfl, by decide⟩

/-- C1 (amended).  When a war advance resolves decisively, the entire stack
(for a first war: the laid pair, then the stake and new-laid cards; for a
chained war: the existing stack, then the stake and new-laid cards — in
their existing order and unshuffled) is written at the index-0 end of the
winner's pile, with the winner's previously remaining cards at the draw end;
since draws pop the last element, the stack cards are drawn again only after
all cards that were already in the winner's pile. -/
theorem C1_war_stack_goes_to_bottom (s : GState) (p n pStake pNew nStake nNew : Card)
    (pl nl : List Card)
    (hcs : s.cardsSet = true)
    (hw : s.warMode = true)
    (hpl : s.playerLaidCard = some p) (hnl : s.npcLaidCard = some n)
    (hP : s.playerCardList = pl ++ [pNew, pStake])
    (hN : s.npcCardList = nl ++ [nNew, nStake]) :
    (s.anotherWar = false → nNew.value < pNew.value →
      (advance s).map (fun r => (r.1, r.2.playerCardList, r.2.npcCardList, r.2.stack,
          r.2.stackCardsToShow, r.2.warMode)) =
        some (false, (s.stack ++ [p, n, pStake, nStake, pNew, nNew]) ++ pl, nl,
          s.stack ++ [p, n, pStake, nStake, pNew, nNew], true, false)) ∧
    (s.anotherWar = false → pNew.value < nNew.value →
      (advance s).map (fun r => (r.1, r.2.playerCardList, r.2.npcCardList, r.2.stack,
          r.2.stackCardsToShow, r.2.warMode)) =
        some (false, pl, (s.stack ++ [p, n, pStake, nStake, pNew, nNew]) ++ nl,
          s.stack ++ [p, n, pStake, nStake, pNew, nNew], true, false)) ∧
    (s.anotherWar = true → nNew.value < pNew.value →
      (advance s).map (fun r => (r.1, r.2.playerCardList, r.2.npcCardList, r.2.stack,
          r.2.stackCardsToShow, r.2.warMode)) =
        some (false, (s.stack ++ [pStake, nStake, pNew, nNew]) ++ pl, nl,
          s.stack ++ [pStake, nStake, pNew, nNew], true, false)) ∧
    (s.anotherWar = true → pNew.value < nNew.value →
      (advance s).map (fun r => (r.1, r.2.playerCardList, r.2.npcCardList, r.2.stack,
          r.2.stackCardsToShow, r.2.warMode)) =
        some (false, pl, (s.stack ++ [pStake, nStake, pNew, nNew]) ++ nl,
          s.stack ++ [pStake, nStake, pNew, nNew], true, false)) := by
  have hmg : manageGame s = war s := manageGame_war s hcs hw
  have hPl := (concat_getLast pl pNew pStake).1
  have hPd := (concat_getLast pl pNew pStake).2
  have hNl := (concat_getLast nl nNew nStake).1
  have hNd := (concat_getLast nl nNew nStake).2
  have h2p : ¬ s.playerCardList.length < 2 := by
    rw [hP]
    simp
  have h2n : ¬ s.npcCardList.length < 2 := by
    rw [hN]
    simp
  refine ⟨?_, ?_, ?_, ?_⟩
  · intro ha hv
    have hwf : war s = warBody { s with stack := s.stack ++ [p, n] } :=
      war_first s p n ha hpl hnl
    have hwb := warBody_win { s with stack := s.stack ++ [p, n] } pStake pNew nStake nNew
      (by show s.playerCardList.getLast? = some pStake; rw [hP, hPl])
      (by show s.playerCardList.dropLast.getLast? = some pNew
          rw [hP, hPd, List.getLast?_concat])
      (by show s.npcCardList.getLast? = some nStake; rw [hN, hNl])
      (by show s.npcCardList.dropLast.getLast? = some nNew
          rw [hN, hNd, List.getLast?_concat])
      hv
    unfold advance
    rw [hmg, hwf, hwb]
    simp [setScores, hP, hN, hPd, hNd, List.dropLast_concat]
  · intro ha hv
    have hwf : war s = warBody { s with stack := s.stack ++ [p, n] } :=
      war_first s p n ha hpl hnl
    have hwb := warBody_lose { s with stack := s.stack ++ [p, n] } pStake pNew nStake nNew
      (by show s.playerCardList.getLast? = some pStake; rw [hP, hPl])
      (by show s.playerCardList.dropLast.getLast? = some pNew
          rw [hP, hPd, List.getLast?_concat])
      (by show s.npcCardList.getLast? = some nStake; rw [hN, hNl])
      (by show s.npcCardList.dropLast.getLast? = some nNew
          rw [hN, hNd, List.getLast?_concat])
      hv
    unfold advance
    rw [hmg, hwf, hwb]
    simp [setScores, hP, hN, hPd, hNd, List.dropLast_concat]
  · intro ha hv
    have hwf : war s = warBody s := war_chain_cont s ha h2p h2n
    have hwb := warBody_win s pStake pNew nStake nNew
      (by rw [hP, hPl])
      (by rw [hP, hPd, List.getLast?_concat])
      (by rw [hN, hNl])
      (by rw [hN, hNd, List.getLast?_concat])
      hv
    unfold advance
    rw [hmg, hwf, hwb]
    simp [setScores, hP, hN, hPd, hNd, List.dropLast_concat]
  · intro ha hv
    have hwf : war s = warBody s := war_chain_cont s ha h2p h2n
    have hwb := warBody_lose s pStake pNew nStake nNew
      (by rw [hP, hPl])
      (by rw [hP, hPd, List.getLast?_concat])
      (by rw [hN, hNl])
      (by rw [hN, hNd, List.getLast?_concat])
      hv
    unfold advance
    rw [hmg, hwf, hwb]
    simp [setScores, hP, hN, hPd, hNd, List.dropLast_concat]


theorem C1_war_stack_goes_to_bottom_witness :
    c1w.anotherWar = false ∧ c10S.value < cJH.value ∧
    (advance c1w).map (fun r => (r.1, r.2.playerCardList, r.2.npcCardList, r.2.stack,
        r.2.stackCardsToShow, r.2.warMode)) =
      some (false, (c1w.stack ++ [c9H, c9S, cQH, cQS, cJH, c10S]) ++ [cAH], [cKS],
        c1w.stack ++ [c9H, c9S, cQH, cQS, cJH, c10S], true, false) :=
  ⟨by decide, by decide,
   (C1_war_stack_goes_to_bottom c1w c9H c9S cQH cJH cQS c10S [cAH] [cKS]
      rfl rfl rfl rfl rfl rfl).1 (by decide) (by decide)⟩

/-- C2 (counterexample).  A reachable NORMAL-phase state whose advance lays
two equal-valued cards: afterwards warMode is indeed true, but the stack is
still empty — the two laid cards are not on it — and both pile sizes have
decreased by one (12 to 11). -/
theorem C2_counterexample :
    Reach (aSt 0) ∧ (aSt 0).warMode = false ∧ (aSt 0).stackCardsToShow = false ∧
      (aSt 0).playerCardList.getLast? = some c9S ∧
      (aSt 0).npcCardList.getLast? = some c9H ∧
      c9S.value = c9H.value ∧
      advance (aSt 0) = some (false, aSt 1) ∧
      (aSt 1).warMode = true ∧
      (aSt 1).stack = [] ∧
      (aSt 0).playerCardList.length = 12 ∧ (aSt 1).playerCardList.length = 11 ∧
      (aSt 0).npcCardList.length = 12 ∧ (aSt 1).npcCardList.length = 11 :=
  ⟨Reach.init [] csA (aSt 0) aSt0_init, by rfl, by rfl, by rfl, by rfl, by rfl,
   by rfl, by rfl, by rfl, by rfl, by rfl, by rfl, by rfl⟩

/-- C2 (amended).  A NORMAL-phase advance that lays two equal-valued cards
(with both sides keeping at least two cards and the round limit not hit)
sets warMode, leaves the stack unchanged (the laid pair is held in the
laid-card registers, joining the stack only on the next, war, advance), and
shrinks each pile by exactly its laid card. -/
theorem C2_normal_tie (s : GState) (p n : Card) (pl nl : List Card)
    (hcs : s.cardsSet = true) (hw : s.warMode = false) (hss : s.stackCardsToShow = false)
    (hP : s.playerCardList = pl ++ [p]) (hN : s.npcCardList = nl ++ [n])
    (hv : p.value = n.value)
    (h2p : 2 ≤ pl.length) (h2n : 2 ≤ nl.length)
    (hr : s.roundNumber + 1 ≠ 100) :
    (advance s).map (fun r => (r.1, r.2.warMode, r.2.stack, r.2.playerCardList,
        r.2.npcCardList, r.2.playerLaidCard, r.2.npcLaidCard)) =
      some (false, true, s.stack, pl, nl, some p, some n) := by
  have hmg := manageGame_normal s hcs hw hss
  have hPd : s.playerCardList.dropLast = pl := by
    rw [hP]
    exact List.dropLast_concat
  have hNd : s.npcCardList.dropLast = nl := by
    rw [hN]
    exact List.dropLast_concat
  have h := gamePlay_tie s p n (by rw [hP]; exact List.getLast?_concat _)
    (by rw [hN]; exact List.getLast?_concat _) hw hv
  have hc1 : ¬ pl.length < 2 := by omega
  have hc2 : ¬ nl.length < 2 := by omega
  have hcg : checkGameOver pl nl (s.roundNumber + 1) = none := by
    unfold checkGameOver MAX_ROUND_NUMBER
    rw [if_neg (by omega), if_neg (by omega), if_neg hr]
  simp only [setScores] at h
  simp only [warChecking, hPd, hNd, hc1, hc2, if_false] at h
  simp [hcg] at h
  unfold advance
  rw [hmg, h]
  simp

theorem C2_normal_tie_witness :
    c9H.value = c9S.value ∧
    (advance c2w).map (fun r => (r.1, r.2.warMode, r.2.stack, r.2.playerCardList,
        r.2.npcCardList, r.2.playerLaidCard, r.2.npcLaidCard)) =
      some (false, true, c2w.stack, [cAH, cJH, cQH], [cKS, c10S, cQS],
        some c9H, some c9S) :=
  ⟨by decide,
   C2_normal_tie c2w c9H c9S [cAH, cJH, cQH] [cKS, c10S, cQS]
     rfl rfl rfl rfl rfl (by decide) (by decide) (by decide) (by decide)⟩

/-- C3 (counterexample).  A reachable state (war just resolved, stack pending
reveal) where piles + stack + in-flight count 30 cards, not the deck's 24:
the six stack cards were copied into the winner's pile while `stack` still
holds them. -/
theorem C3_counterexample :
    Reach (aSt 2) ∧
      (aSt 2).playerCardList.length + (aSt 2).npcCardList.length +
        (aSt 2).stack.length + (flightCards (aSt 2)).length = 30 ∧
      (aSt 2).playerCardList.length + (aSt 2).npcCardList.length +
        (aSt 2).stack.length + (flightCards (aSt 2)).length ≠ 24 :=
  ⟨reach_aSt2, by decide, by decide⟩

theorem C3_conservation_witness :
    (aSt 1).playerCardList.length + (aSt 1).npcCardList.length +
      (flightCards (aSt 1)).length +
      (if (aSt 1).stackCardsToShow = true ∨ (aSt 1).over = true then 0
        else (aSt 1).stack.length) = 24 :=
  C3_conservation (aSt 1) reach_aSt1

/-- C4 (counterexample).  A reachable terminal state (the player lost a
chained war; NPC holds all 24 cards) where calling `manageGame` again is not
a no-op: it reports game over again but re-runs `warChecking`, appending the
stale 22-card stack to the NPC pile once more (24 to 46 entries). -/
theorem C4_counterexample :
    Reach (bSt 7) ∧ (bSt 7).over = true ∧ (bSt 7).winner = some Winner.npc ∧
      (bSt 7).npcCardList.length = 24 ∧
      (manageGame (bSt 7)).map (fun r => (r.1, r.2.npcCardList.length)) =
        some (true, 46) :=
  ⟨reach_bSt7, by rfl, by rfl, by rfl, by rfl⟩

/-- C4 (amended).  The engine does not guard terminal states: a further
`manageGame` call keeps processing (Main.py merely disables the play button).
In a terminal chained-war state it returns game over true again but mutates
the winner's pile by appending the stale stack a second time; in a terminal
NORMAL-phase state with an empty player pile it pops the empty list and
raises (modelled as `none`). -/
theorem C4_after_game_over (s : GState)
    (hcs : s.cardsSet = true) (hov : s.over = true) :
    (s.warMode = true → s.anotherWar = true → s.playerCardList.length < 2 →
      s.stack ≠ [] →
      (manageGame s).map (fun r => (r.1, r.2.npcCardList)) =
        some (true, s.npcCardList ++ s.stack ++ s.playerCardList) ∧
      s.npcCardList.length < (s.npcCardList ++ s.stack ++ s.playerCardList).length) ∧
    (s.warMode = false → s.stackCardsToShow = false → s.playerCardList = [] →
      manageGame s = none) := by
  constructor
  · intro hw ha h2p hstk
    have hlen : ¬ (s.npcCardList ++ s.stack ++ s.playerCardList).length = 0 := by
      have := List.length_pos.mpr hstk
      simp only [List.length_append]
      omega
    have hcg : checkGameOver ([] : List Card)
        (s.npcCardList ++ s.stack ++ s.playerCardList) s.roundNumber =
        some Winner.npc := by
      unfold checkGameOver
      rw [if_neg hlen, if_pos (by simp)]
    constructor
    · rw [manageGame_war s hcs hw, war_chain_pShort s ha h2p]
      show Option.map (fun r => (r.1, r.2.npcCardList))
          (some ((checkGameOver ([] : List Card)
            (s.npcCardList ++ s.stack ++ s.playerCardList) s.roundNumber).isSome,
            if (checkGameOver ([] : List Card)
                (s.npcCardList ++ s.stack ++ s.playerCardList) s.roundNumber).isSome = true then
              { s with npcCardList := s.npcCardList ++ s.stack ++ s.playerCardList
                       playerCardList := []
                       winner := checkGameOver ([] : List Card)
                         (s.npcCardList ++ s.stack ++ s.playerCardList) s.roundNumber }
            else
              { s with npcCardList := s.npcCardList ++ s.stack ++ s.playerCardList
                       playerCardList := [] })) =
        some (true, s.npcCardList ++ s.stack ++ s.playerCardList)
      rw [hcg]
      simp
    · have := List.length_pos.mpr hstk
      simp only [List.length_append]
      omega
  · intro hw hss hpe
    rw [manageGame_normal s hcs hw hss]
    exact gamePlay_none_left s (by rw [hpe]; rfl)

theorem C4_after_game_over_witness :
    ((c4w.warMode = true → c4w.anotherWar = true → c4w.playerCardList.length < 2 →
      c4w.stack ≠ [] →
      (manageGame c4w).map (fun r => (r.1, r.2.npcCardList)) =
        some (true, c4w.npcCardList ++ c4w.stack ++ c4w.playerCardList) ∧
      c4w.npcCardList.length <
        (c4w.npcCardList ++ c4w.stack ++ c4w.playerCardList).length) ∧
    (c4w.warMode = false → c4w.stackCardsToShow = false → c4w.playerCardList = [] →
      manageGame c4w = none)) ∧
    c4w.cardsSet = true ∧ c4w.over = true ∧ c4w.warMode = true ∧
      c4w.playerCardList.length < 2 ∧ c4w.stack ≠ [] :=
  ⟨C4_after_game_over c4w rfl rfl, rfl, rfl, rfl, by decide, by decide⟩

/-- C5.  In a NORMAL-phase round with a strictly higher laid card, the
winner's pile gains exactly the two laid cards at its index-0 (back,
non-draw) end, ordered loser's card at index 0 and winner's card at index 1,
so the winner's laid card is drawn again before the loser's; the loser's
pile just loses its laid card; the stack is untouched. -/
theorem C5_round_resolution (s : GState) (p n : Card) (pl nl : List Card)
    (hcs : s.cardsSet = true) (hw : s.warMode = false) (hss : s.stackCardsToShow = false)
    (hP : s.playerCardList = pl ++ [p]) (hN : s.npcCardList = nl ++ [n]) :
    (n.value < p.value →
      (advance s).map (fun r => (r.2.playerCardList, r.2.npcCardList, r.2.stack)) =
        some (n :: p :: pl, nl, s.stack)) ∧
    (p.value < n.value →
      (advance s).map (fun r => (r.2.playerCardList, r.2.npcCardList, r.2.stack)) =
        some (pl, p :: n :: nl, s.stack)) := by
  have hmg := manageGame_normal s hcs hw hss
  have hPd : s.playerCardList.dropLast = pl := by
    rw [hP]
    exact List.dropLast_concat
  have hNd : s.npcCardList.dropLast = nl := by
    rw [hN]
    exact List.dropLast_concat
  constructor
  · intro hv
    have h := gamePlay_win s p n (by rw [hP]; exact List.getLast?_concat _)
      (by rw [hN]; exact List.getLast?_concat _) hw hv
    simp only [setScores] at h
    cases hcg : checkGameOver (n :: p :: s.playerCardList.dropLast)
        s.npcCardList.dropLast (s.roundNumber + 1) with
    | none =>
      simp [hcg] at h
      unfold advance
      rw [hmg, h]
      simp [hPd, hNd]
    | some w0 =>
      simp [hcg] at h
      unfold advance
      rw [hmg, h]
      simp [hPd, hNd]
  · intro hv
    have h := gamePlay_lose s p n (by rw [hP]; exact List.getLast?_concat _)
      (by rw [hN]; exact List.getLast?_concat _) hw hv
    simp only [setScores] at h
    cases hcg : checkGameOver s.playerCardList.dropLast
        (p :: n :: s.npcCardList.dropLast) (s.roundNumber + 1) with
    | none =>
      simp [hcg] at h
      unfold advance
      rw [hmg, h]
      simp [hPd, hNd]
    | some w0 =>
      simp [hcg] at h
      unfold advance
      rw [hmg, h]
      simp [hPd, hNd]

theorem C5_round_resolution_witness :
    c10S.value < cJH.value ∧
    (advance c5w).map (fun r => (r.2.playerCardList, r.2.npcCardList, r.2.stack)) =
      some (c10S :: cJH :: [cAH, c9H], [cKS, c9S], c5w.stack) :=
  ⟨by decide,
   (C5_round_resolution c5w cJH c10S [cAH, c9H] [cKS, c9S] rfl rfl rfl rfl rfl).1
     (by decide)⟩

/-- C6.  On a war-chain continuation (warMode and anotherWar both set) in
which a side holds fewer than 2 cards, that side's pile is emptied, the
other side's pile becomes its own cards, then the stack, then the
insufficient side's cards, and the game-over check run on the same advance
declares the other side the winner. -/
theorem C6_war_insufficient (s : GState)
    (hcs : s.cardsSet = true) (hw : s.warMode = true) (ha : s.anotherWar = true) :
    (s.playerCardList.length < 2 → s.stack ≠ [] →
      (advance s).map (fun r => (r.1, r.2.playerCardList, r.2.npcCardList,
          r.2.winner, r.2.over)) =
        some (true, [], s.npcCardList ++ s.stack ++ s.playerCardList,
          some Winner.npc, true)) ∧
    (¬ s.playerCardList.length < 2 → s.npcCardList.length < 2 →
      (advance s).map (fun r => (r.1, r.2.playerCardList, r.2.npcCardList,
          r.2.winner, r.2.over)) =
        some (true, s.playerCardList ++ s.stack ++ s.npcCardList, [],
          some Winner.player, true)) := by
  constructor
  · intro h2p hstk
    have hlen : ¬ (s.npcCardList ++ s.stack ++ s.playerCardList).length = 0 := by
      have := List.length_pos.mpr hstk
      simp only [List.length_append]
      omega
    have hcg : checkGameOver ([] : List Card)
        (s.npcCardList ++ s.stack ++ s.playerCardList) s.roundNumber =
        some Winner.npc := by
      unfold checkGameOver
      rw [if_neg hlen, if_pos (by simp)]
    unfold advance
    rw [manageGame_war s hcs hw, war_chain_pShort s ha h2p]
    show Option.map (fun r => (r.1, r.2.playerCardList, r.2.npcCardList,
        r.2.winner, r.2.over))
        (match (some ((checkGameOver ([] : List Card)
          (s.npcCardList ++ s.stack ++ s.playerCardList) s.roundNumber).isSome,
          if (checkGameOver ([] : List Card)
              (s.npcCardList ++ s.stack ++ s.playerCardList) s.roundNumber).isSome = true then
            { s with npcCardList := s.npcCardList ++ s.stack ++ s.playerCardList
                     playerCardList := []
                     winner := checkGameOver ([] : List Card)
                       (s.npcCardList ++ s.stack ++ s.playerCardList) s.roundNumber }
          else
            { s with npcCardList := s.npcCardList ++ s.stack ++ s.playerCardList
                     playerCardList := [] }) : Option (Bool × GState)) with
        | none => none
        | some (b, s1) => some (b, if b then { s1 with over := true } else s1)) =
      some (true, [], s.npcCardList ++ s.stack ++ s.playerCardList,
        some Winner.npc, true)
    rw [hcg]
    simp
  · intro h2p h2n
    have hcg : checkGameOver (s.playerCardList ++ s.stack ++ s.npcCardList)
        ([] : List Card) s.roundNumber = some Winner.player := by
      unfold checkGameOver
      rw [if_pos (by simp)]
    unfold advance
    rw [manageGame_war s hcs hw, war_chain_nShort s ha h2p h2n]
    show Option.map (fun r => (r.1, r.2.playerCardList, r.2.npcCardList,
        r.2.winner, r.2.over))
        (match (some ((checkGameOver (s.playerCardList ++ s.stack ++ s.npcCardList)
          ([] : List Card) s.roundNumber).isSome,
          if (checkGameOver (s.playerCardList ++ s.stack ++ s.npcCardList)
              ([] : List Card) s.roundNumber).isSome = true then
            { s with playerCardList := s.playerCardList ++ s.stack ++ s.npcCardList
                     npcCardList := []
                     winner := checkGameOver (s.playerCardList ++ s.stack ++ s.npcCardList)
                       ([] : List Card) s.roundNumber }
          else
            { s with playerCardList := s.playerCardList ++ s.stack ++ s.npcCardList
                     npcCardList := [] }) : Option (Bool × GState)) with
        | none => none
        | some (b, s1) => some (b, if b then { s1 with over := true } else s1)) =
      some (true, s.playerCardList ++ s.stack ++ s.npcCardList, [],
        some Winner.player, true)
    rw [hcg]
    simp

theorem C6_war_insufficient_witness :
    c6w.playerCardList.length < 2 ∧ c6w.stack ≠ [] ∧
    (advance c6w).map (fun r => (r.1, r.2.playerCardList, r.2.npcCardList,
        r.2.winner, r.2.over)) =
      some (true, [], c6w.npcCardList ++ c6w.stack ++ c6w.playerCardList,
        some Winner.npc, true) :=
  ⟨by decide, by decide,
   (C6_war_insufficient c6w rfl rfl rfl).1 (by decide) (by decide)⟩

/-- C10.  If a NORMAL-phase round ties and a side is left with fewer than two
cards after laying, the same advance transfers that side's remaining cards
plus the (empty) stack to the opponent, empties the insufficient side's
pile, and returns game over with the opponent as winner; the two tied laid
cards belong to neither pile nor the stack afterwards, so with a 24-card
deal the winner ends holding 22 cards. -/
theorem C10_normal_tie_insufficient (s : GState) (p n : Card) (pl nl : List Card)
    (hcs : s.cardsSet = true) (hw : s.warMode = false) (hss : s.stackCardsToShow = false)
    (hstk : s.stack = [])
    (hP : s.playerCardList = pl ++ [p]) (hN : s.npcCardList = nl ++ [n])
    (hv : p.value = n.value)
    (hnd : (s.playerCardList ++ s.npcCardList).Nodup)
    (h24 : s.playerCardList.length + s.npcCardList.length = 24) :
    (pl.length < 2 →
      (advance s).map (fun r => (r.1, r.2.playerCardList, r.2.npcCardList, r.2.stack,
          r.2.warMode, r.2.winner)) =
        some (true, [], nl ++ pl, [], true, some Winner.npc) ∧
      p ∉ nl ++ pl ∧ n ∉ nl ++ pl ∧ (nl ++ pl).length = 22) ∧
    (¬ pl.length < 2 → nl.length < 2 →
      (advance s).map (fun r => (r.1, r.2.playerCardList, r.2.npcCardList, r.2.stack,
          r.2.warMode, r.2.winner)) =
        some (true, pl ++ nl, [], [], true, some Winner.player) ∧
      p ∉ pl ++ nl ∧ n ∉ pl ++ nl ∧ (pl ++ nl).length = 22) := by
  have hmg := manageGame_normal s hcs hw hss
  have hPd : s.playerCardList.dropLast = pl := by
    rw [hP]
    exact List.dropLast_concat
  have hNd : s.npcCardList.dropLast = nl := by
    rw [hN]
    exact List.dropLast_concat
  have hlp : s.playerCardList.length = pl.length + 1 := by rw [hP]; simp
  have hln : s.npcCardList.length = nl.length + 1 := by rw [hN]; simp
  rw [hP, hN, List.nodup_append] at hnd
  obtain ⟨hnd1, hnd2, hdisj⟩ := hnd
  rw [List.nodup_append] at hnd1 hnd2
  have hpPl : p ∉ pl := by
    intro hc
    exact hnd1.2.2 hc (by simp)
  have hnNl : n ∉ nl := by
    intro hc
    exact hnd2.2.2 hc (by simp)
  have hpNl : p ∉ nl := by
    intro hc
    exact @hdisj p (by simp) (by simp [hc])
  have hnPl : n ∉ pl := by
    intro hc
    exact @hdisj n (by simp [hc]) (by simp)
  have h := gamePlay_tie s p n (by rw [hP]; exact List.getLast?_concat _)
    (by rw [hN]; exact List.getLast?_concat _) hw hv
  simp only [setScores] at h
  constructor
  · intro h2p
    have hlen : ¬ (nl ++ pl).length = 0 := by
      simp only [List.length_append]
      omega
    have hcg : checkGameOver ([] : List Card) (nl ++ pl) (s.roundNumber + 1) =
        some Winner.npc := by
      unfold checkGameOver
      rw [if_neg hlen, if_pos (by simp)]
    have hwcond : pl.length < 2 := h2p
    simp only [warChecking, hPd, hNd, hstk, hwcond, if_true] at h
    simp [hcg] at h
    refine ⟨?_, by simp [hpNl, hpPl], by simp [hnNl, hnPl], by simp; omega⟩
    unfold advance
    rw [hmg, h]
    simp
  · intro h2p h2n
    have hcg : checkGameOver (pl ++ nl) ([] : List Card) (s.roundNumber + 1) =
        some Winner.player := by
      unfold checkGameOver
      rw [if_pos (by simp)]
    have hc1 : ¬ pl.length < 2 := h2p
    have hwcond : nl.length < 2 := h2n
    simp only [warChecking, hPd, hNd, hstk, hc1, hwcond, if_true, if_false] at h
    simp [hcg] at h
    refine ⟨?_, by simp [hpNl, hpPl], by simp [hnNl, hnPl], by simp; omega⟩
    unfold advance
    rw [hmg, h]
    simp

theorem C10_normal_tie_insufficient_witness :
    ([] : List Card).length < 2 ∧
    ((advance c10w).map (fun r => (r.1, r.2.playerCardList, r.2.npcCardList, r.2.stack,
        r.2.warMode, r.2.winner)) =
      some (true, [], c10rest ++ [], [], true, some Winner.npc) ∧
    c9H ∉ c10rest ++ ([] : List Card) ∧ c9S ∉ c10rest ++ ([] : List Card) ∧
    (c10rest ++ ([] : List Card)).length = 22) :=
  ⟨by decide,
   (C10_normal_tie_insufficient c10w c9H c9S [] c10rest
      rfl rfl rfl rfl rfl rfl (by decide) (by decide) (by decide)).1 (by decide)⟩

/-- Context for C8: the deck always holds 4 cards per rank of the rank/value
map (one per suit), so the total card count is 4 times the map size and is
always even — there is no map that "produces an odd total card count", and
the code accordingly contains no parity check or rejection path. -/
theorem buildStartingDeck_count (rankValueDict : List (String × Nat)) :
    (buildStartingDeck rankValueDict).length = 4 * rankValueDict.length ∧
    Even (buildStartingDeck rankValueDict).length := by
  have hlen : (buildStartingDeck rankValueDict).length = 4 * rankValueDict.length := by
    unfold buildStartingDeck SUIT_TUPLE
    simp
    omega
  exact ⟨hlen, by rw [hlen]; exact ⟨2 * rankValueDict.length, by omega⟩⟩
